import Mathlib

set_option maxRecDepth 8000

/-!
Verification development for the qa-framework-gen scaffolding tool.

The Python sources under `framework/` are shallowly embedded below:
pure string helpers become Lean functions on `String` / `List Char`,
the configuration model becomes structures with `Except`-valued parsing,
and the file-generating CLI commands become explicit transformers of a
small association-list filesystem model.
-/

namespace Qfg

/-! ### Character classes

`isAlnumAscii` models membership in the regex class `[a-zA-Z0-9]`
(used by `_slugify` and `_class_name` in `framework/cli/__init__.py`).
The numeric bounds are the ASCII codes of `a..z` (97..122),
`A..Z` (65..90) and `0..9` (48..57). -/

def isAlnumAscii (c : Char) : Bool :=
  (97 ≤ c.toNat && c.toNat ≤ 122) || (65 ≤ c.toNat && c.toNat ≤ 90) ||
    (48 ≤ c.toNat && c.toNat ≤ 57)

/-- Membership in the regex class `[a-z0-9]` (lower-case letters and digits). -/
def isLowerSlugChar (c : Char) : Bool :=
  (97 ≤ c.toNat && c.toNat ≤ 122) || (48 ≤ c.toNat && c.toNat ≤ 57)

/-- The ASCII whitespace characters stripped by Python's `str.strip()`:
space, tab, newline, carriage return, vertical tab, form feed. -/
def isPyWhitespace (c : Char) : Bool :=
  c = ' ' || c = '\t' || c = '\n' || c = '\r' || c = '\x0b' || c = '\x0c'

/-- ASCII lowering of one character, as Python's `str.lower()` acts on
ASCII text: `A..Z` (codes 65..90) map 32 codes up, everything else is fixed. -/
def asciiLower (c : Char) : Char :=
  if 65 ≤ c.toNat && c.toNat ≤ 90 then Char.ofNat (c.toNat + 32) else c

/-- ASCII raising of one character, as Python's `str.upper()` acts on
ASCII text: `a..z` (codes 97..122) map 32 codes down, everything else is fixed. -/
def asciiUpper (c : Char) : Char :=
  if 97 ≤ c.toNat && c.toNat ≤ 122 then Char.ofNat (c.toNat - 32) else c

/-! ### Generic trimming helpers -/

/-- Remove the longest suffix of characters satisfying `p`. -/
def dropTrail (p : Char → Bool) (l : List Char) : List Char :=
  ((l.reverse).dropWhile p).reverse

/-- Remove the longest prefix and the longest suffix of characters
satisfying `p` (Python's `str.strip(chars)`). -/
def dropAround (p : Char → Bool) (l : List Char) : List Char :=
  dropTrail p (l.dropWhile p)

/-- Python's `str.strip()` with no argument: trim ASCII whitespace on both ends. -/
def pyStrip (s : String) : String :=
  String.mk (dropAround isPyWhitespace s.toList)

/-- Python's `base_url.rstrip("/")` from the `init` command: remove every
trailing `/`. -/
def rstripSlashes (s : String) : String :=
  String.mk (dropTrail (fun c => c = '/') s.toList)

/-- Python's `str.endswith`. -/
def pyEndsWith (s suffix : String) : Bool :=
  decide (suffix.toList <:+ s.toList)

/-- Python's `str.startswith`. -/
def pyStartsWith (s pre : String) : Bool :=
  decide (pre.toList <+: s.toList)

/-! ### The name normalizer (`_slugify`, `_package_name`, `_class_name`) -/

/-- Character automaton for `re.sub(r"[^a-zA-Z0-9]+", "-", value)`: `inSep`
records whether the previous character belonged to a separator run, so each
maximal run of characters outside `[a-zA-Z0-9]` emits a single hyphen. -/
def reSubGo : Bool → List Char → List Char
  | _, [] => []
  | inSep, c :: cs =>
    if isAlnumAscii c then c :: reSubGo false cs
    else if inSep then reSubGo true cs
    else '-' :: reSubGo true cs

/-- Models `re.sub(r"[^a-zA-Z0-9]+", "-", value)`: every maximal run of
characters outside `[a-zA-Z0-9]` is replaced by a single hyphen. -/
def reSub (l : List Char) : List Char :=
  reSubGo false l

/-- Character automaton for `re.split(r"[^a-zA-Z0-9]+", value)`, with the
same separator-run state as `reSubGo`: inside a separator run, further
separator characters are absorbed. -/
def reSplitGo : Bool → List Char → List (List Char)
  | _, [] => [[]]
  | inSep, c :: cs =>
    if isAlnumAscii c then
      match reSplitGo false cs with
      | [] => [[c]]
      | g :: gs => (c :: g) :: gs
    else if inSep then reSplitGo true cs
    else [] :: reSplitGo true cs

/-- Models `re.split(r"[^a-zA-Z0-9]+", value)`: the pieces of the string
between maximal runs of non-alphanumeric characters.  As with Python's
`re.split`, a leading or trailing separator run contributes an empty piece. -/
def reSplitRuns (l : List Char) : List (List Char) :=
  reSplitGo false l

/-- The maximal non-empty alphanumeric runs of a character list.  This is the
specification-level tokenizer used to state properties of `_slugify` and
`_class_name`. -/
def runTokens : List Char → List (List Char)
  | [] => []
  | c :: cs =>
    if isAlnumAscii c then
      (c :: cs.takeWhile isAlnumAscii) :: runTokens (cs.dropWhile isAlnumAscii)
    else runTokens cs
termination_by l => l.length
decreasing_by
  · have h := (List.dropWhile_sublist isAlnumAscii (l := cs)).length_le
    simp only [List.length_cons]; omega
  · simp only [List.length_cons]; omega

/-- `_slugify` from `framework/cli/__init__.py`:
`re.sub(r"[^a-zA-Z0-9]+", "-", value).strip("-").lower()` with the fallback
literal `"project"` for an empty result. -/
def _slugify (value : String) : String :=
  let slug := String.mk ((dropAround (fun c => c = '-') (reSub value.toList)).map asciiLower)
  if slug = "" then "project" else slug

/-- `_package_name` from `framework/cli/__init__.py`:
`_slugify(value).replace("-", "_")` (the same expression computes
`module_slug` inside `add_page` and `add_test`). -/
def _package_name (value : String) : String :=
  String.mk ((_slugify value).toList.map (fun c => if c = '-' then '_' else c))

/-- Python's `str.capitalize()` on a token: first character upper-cased
(title-cased; identical on ASCII), all remaining characters lower-cased. -/
def pyCapitalize : List Char → List Char
  | [] => []
  | c :: cs => asciiUpper c :: cs.map asciiLower

/-- The token list of `_class_name`: `re.split(r"[^a-zA-Z0-9]+", value)`
filtered by the `if token` guard of the comprehension (dropping the empty
pieces). -/
def classNameTokens (value : String) : List (List Char) :=
  (reSplitRuns value.toList).filter (fun t => t ≠ [])

/-- The joined capitalized tokens of `_class_name`:
`"".join(token.capitalize() for token in tokens if token)`. -/
def classNameCore (value : String) : String :=
  String.mk (List.flatten ((classNameTokens value).map pyCapitalize))

/-- `_class_name` from `framework/cli/__init__.py`: joined capitalized tokens
with fallback `"Page"` and the `"Page"` suffix appended when absent. -/
def _class_name (value : String) : String :=
  let name := classNameCore value
  let name := if name = "" then "Page" else name
  if pyEndsWith name "Page" then name else name ++ "Page"

/-- Python's `str.lower()` on ASCII text: lower each character. -/
def pyLower (s : String) : String :=
  String.mk (s.toList.map asciiLower)


/-- Split a character list at every occurrence of `sep`; empty chunks are
kept (so `n` separators yield `n + 1` chunks). -/
def splitSep (sep : Char) : List Char → List (List Char)
  | [] => [[]]
  | c :: cs =>
    if c = sep then [] :: splitSep sep cs
    else
      match splitSep sep cs with
      | [] => [[c]]
      | g :: gs => (c :: g) :: gs

/-- Decides the regular expression `^[a-z0-9]+(-[a-z0-9]+)*$`: split at every
hyphen; every chunk must be non-empty and lower-alphanumeric. -/
def slugOk (l : List Char) : Bool :=
  (splitSep '-' l).all (fun g => !g.isEmpty && g.all isLowerSlugChar)

/-- The type-name concatenation as the specification words it in C4: the
first character of each token upper-cased, the remaining characters of the
token untouched. -/
def claimedTypeNameConcat (value : String) : String :=
  String.mk (List.flatten ((classNameTokens value).map (fun t =>
    match t with
    | [] => []
    | c :: cs => asciiUpper c :: cs)))

/-! ### The locator model (`framework/models/locator.py`) -/

/-- The frozen dataclass `Locator` with fields `by` and `value`
(`by` is a Lean keyword, hence the trailing underscore). -/
structure Locator where
  by_ : String
  value : String
deriving DecidableEq

/-- `Locator.as_tuple`: `return self.by, self.value`. -/
def Locator.as_tuple (l : Locator) : String × String :=
  (l.by_, l.value)

/-- The union type `LocatorLike = Union[Locator, Tuple[str, str]]`. -/
inductive LocatorLike where
  | locator (l : Locator)
  | tuple (t : String × String)
deriving DecidableEq

/-- `to_locator_tuple` from `framework/models/locator.py`: a `Locator` is
converted through `as_tuple`, a tuple is returned unchanged. -/
def to_locator_tuple : LocatorLike → String × String
  | .locator l => l.as_tuple
  | .tuple t => t

/-! ### The configuration model

`ProjectConfig` is the frozen dataclass of `framework/models/config.py`.
The YAML mapping fed to `ProjectConfig.from_mapping` is embedded as
`RawConfig`: each section is an optional structure (absent key, or a value
that is not a mapping, becomes `none`), string-valued keys are
`Option String`. -/

structure ProjectConfig where
  name : String
  base_url : String
  default_browser : String := "chrome"
deriving DecidableEq

/-- The nested `project` mapping: keys `name`, `base_url`, `default_browser`. -/
structure RawProject where
  name : Option String := none
  base_url : Option String := none
  default_browser : Option String := none
deriving DecidableEq

/-- The `framework` metadata section written by `_generate_config`. -/
structure RawFramework where
  version : String
  generator : String
  created : String
deriving DecidableEq

/-- The `driver` section: keys `type` (a Lean keyword, hence `type_`) and
`browsers`. -/
structure RawDriver where
  type_ : String
  browsers : List String
deriving DecidableEq

/-- The `features` section: eight boolean flags, each possibly absent
(`config["features"].get(flag, False)` supplies the default on read). -/
structure RawFeatures where
  docker : Option Bool := none
  ci_cd : Option Bool := none
  allure : Option Bool := none
  quality_tools : Option Bool := none
  pre_commit : Option Bool := none
  parallel : Option Bool := none
  flaky_retry : Option Bool := none
  api_testing : Option Bool := none
deriving DecidableEq

/-- The `settings` section written by `_generate_config`. -/
structure RawSettings where
  logging_mode : String
  test_data_format : String
  playwright_async : Bool
deriving DecidableEq

/-- A persisted manifest mapping (`.framework-config.yml` after the
YAML codec, which the specification excludes as an external collaborator). -/
structure RawConfig where
  framework : Option RawFramework := none
  project : Option RawProject := none
  driver : Option RawDriver := none
  features : Option RawFeatures := none
  settings : Option RawSettings := none
deriving DecidableEq

/-- `ProjectConfig.from_mapping` from `framework/models/config.py`.
Raises (here: `Except.error`) when the `project` key is missing or not a
mapping, or when `base_url` is empty after `str(...).strip()`; otherwise
builds the dataclass, defaulting `name` to `"automation-project"` and
`default_browser` to `"chrome"` (lower-cased). -/
def ProjectConfig.from_mapping (data : RawConfig) : Except String ProjectConfig :=
  match data.project with
  | none => .error "Config must contain a 'project' mapping."
  | some project_section =>
    let name := project_section.name.getD "automation-project"
    let base_url := pyStrip (project_section.base_url.getD "")
    if base_url = "" then .error "Project config requires a non-empty 'base_url'."
    else
      let default_browser := pyLower (project_section.default_browser.getD "chrome")
      .ok { name, base_url, default_browser }

/-- The template-rendering context assembled by the `init` command (only the
fields that `_generate_config` and the generation steps read). `featuresSel`
is the list of feature identifiers selected interactively; the context holds
`feature: True` for exactly those. -/
structure InitContext where
  project_name : String
  project_slug : String
  project_package : String
  base_url : String
  driver_type : String
  browsers : List String
  featuresSel : List String
deriving DecidableEq

/-- `_generate_config` from `framework/cli/__init__.py`: the manifest mapping
written to `.framework-config.yml`.  `created` stands for
`datetime.datetime.now().isoformat()`, supplied by the environment. -/
def _generate_config (context : InitContext) (created : String) : RawConfig :=
  { framework := some { version := "1.0.0", generator := "qa-framework-gen", created }
  , project := some { name := some context.project_name
                    , base_url := some context.base_url
                    , default_browser := none }
  , driver := some { type_ := context.driver_type, browsers := context.browsers }
  , features := some
      { docker := some (context.featuresSel.contains "docker")
      , ci_cd := some (context.featuresSel.contains "ci_cd")
      , allure := some (context.featuresSel.contains "allure")
      , quality_tools := some (context.featuresSel.contains "quality_tools")
      , pre_commit := some (context.featuresSel.contains "pre_commit")
      , parallel := some (context.featuresSel.contains "parallel")
      , flaky_retry := some (context.featuresSel.contains "flaky_retry")
      , api_testing := some (context.featuresSel.contains "api_testing") }
  , settings := some { logging_mode := "json", test_data_format := "yaml"
                     , playwright_async := true } }

/-- The serialization of a `ProjectConfig` through `_generate_config`: the
dataclass fields `name` and `base_url` populate the context exactly as the
`init` command populates them from its inputs (`default_browser` has no
counterpart in the written mapping). -/
def serializeProjectConfig (cfg : ProjectConfig) (driver_type : String)
    (browsers : List String) (featuresSel : List String) (created : String) : RawConfig :=
  _generate_config
    { project_name := cfg.name
    , project_slug := _package_name cfg.name
    , project_package := _package_name cfg.name
    , base_url := cfg.base_url
    , driver_type := driver_type
    , browsers := browsers
    , featuresSel := featuresSel } created

/-! ### Filesystem model

Paths are segment lists; the filesystem is an association list from paths to
nodes.  Contents of generated files inspected by some property are kept as
literal strings (`FileContent.text`); the persisted manifest is kept as the
structured mapping it serializes (`FileContent.yaml` — the YAML codec is an
excluded external collaborator); the large fixed template bodies that no
property inspects (base pages, example pages/tests, conftest files) are kept
as their generator's tag applied to its parameters (`FileContent.fixed`),
which preserves exactly which file is written where with which inputs. -/

abbrev FsPath := List String

inductive FileContent where
  | text (s : String)
  | yaml (cfg : RawConfig)
  | fixed (tag : String) (params : List String)
deriving DecidableEq

inductive Node where
  | dir
  | file (content : FileContent)
deriving DecidableEq

abbrev Fs := List (FsPath × Node)

/-- Look up the node at a path. -/
def fsGet (fs : Fs) (p : FsPath) : Option Node :=
  (fs.find? (fun e => e.1 = p)).map (fun e => e.2)

/-- `Path.exists()`. -/
def fsExists (fs : Fs) (p : FsPath) : Bool :=
  (fsGet fs p).isSome

/-- `any(p.iterdir())`: some entry lies strictly below `p`. -/
def fsHasChild (fs : Fs) (p : FsPath) : Bool :=
  fs.any (fun e => p.isPrefixOf e.1 && e.1 ≠ p)

/-- Whole-file replacement write (`Path.write_text`), also used to record a
directory creation. -/
def fsWrite (fs : Fs) (p : FsPath) (n : Node) : Fs :=
  (fs.filter (fun e => e.1 ≠ p)) ++ [(p, n)]

/-- The non-empty prefixes of a path, shortest first. -/
def fsPrefixes : FsPath → List FsPath
  | [] => []
  | s :: rest => [s] :: (fsPrefixes rest).map (fun q => s :: q)

/-- `Path.mkdir(parents=True, exist_ok=True)`. -/
def fsMkdirp (fs : Fs) (p : FsPath) : Fs :=
  (fsPrefixes p).foldl (fun acc q => if fsExists acc q then acc else acc ++ [(q, Node.dir)]) fs

/-- `read_text` on a node, when its content is modeled literally. -/
def readText : Node → Option String
  | .file (.text s) => some s
  | _ => none

/-- Substring test, Python's `needle in haystack`. -/
def containsSub (haystack needle : String) : Bool :=
  decide (needle.toList <:+: haystack.toList)

/-! ### Artifact template contents (`framework/cli/__init__.py`) -/

/-- The Selenium page-object template of `_create_selenium_page` (the
rendered f-string, chunked at the `class` declaration and the embedded URL). -/
def seleniumPageContent (display_name cls url : String) : String :=
  "\"\"\"Page object for " ++ display_name ++ ".\"\"\"\n\nfrom selenium.webdriver.common.by import By\nfrom selenium.webdriver.remote.webdriver import WebDriver\n\n\n" ++
    "class " ++ cls ++ ":" ++
    "\n    \"\"\"Page object for " ++ display_name ++ " page.\"\"\"\n\n    def __init__(self, driver: WebDriver) -> None:\n        self.driver = driver\n        " ++
    "self.url = \"" ++ url ++ "\"" ++
    "\n\n    def visit(self) -> None:\n        \"\"\"Navigate to the page.\"\"\"\n        self.driver.get(self.url)\n"

/-- The Playwright page-object template of `_create_playwright_page`. -/
def playwrightPageContent (display_name cls url : String) : String :=
  "\"\"\"Page object for " ++ display_name ++ ".\"\"\"\n\nfrom playwright.async_api import Page\n\n\nclass " ++ cls ++ ":\n    \"\"\"Page object for " ++ display_name ++ " page.\"\"\"\n\n    def __init__(self, page: Page) -> None:\n        self.page = page\n        self.url = \"" ++ url ++ "\"\n\n    async def visit(self) -> None:\n        \"\"\"Navigate to the page.\"\"\"\n        await self.page.goto(self.url)\n"

/-- The Selenium test template of `_create_selenium_test`. -/
def seleniumTestContent (test_name : String) : String :=
  let cls := _class_name test_name
  "\"\"\"Tests for " ++ test_name ++ ".\"\"\"\n\nimport pytest\nfrom selenium.webdriver.remote.webdriver import WebDriver\n\n\n@pytest.mark.selenium\n@pytest.mark.ui\nclass Test" ++ (cls.replace "Page" "") ++ ":\n    \"\"\"Test suite for " ++ test_name ++ ".\"\"\"\n\n    def test_example(self, driver: WebDriver) -> None:\n        \"\"\"Example test - replace with actual test logic.\"\"\"\n        assert True, \"Replace with actual test\"\n"

/-- The Playwright test template of `_create_playwright_test`. -/
def playwrightTestContent (test_name : String) : String :=
  let cls := _class_name test_name
  "\"\"\"Tests for " ++ test_name ++ " (Playwright).\"\"\"\n\nimport pytest\nfrom playwright.async_api import Page\n\n\n@pytest.mark.playwright\n@pytest.mark.ui\n@pytest.mark.asyncio\nclass Test" ++ (cls.replace "Page" "") ++ "Playwright:\n    \"\"\"Playwright test suite for " ++ test_name ++ ".\"\"\"\n\n    async def test_example(self, page: Page) -> None:\n        \"\"\"Example test - replace with actual test logic.\"\"\"\n        assert True, \"Replace with actual test\"\n"

/-- The API test template of `_create_api_test`. -/
def apiTestContent (test_name base_url : String) : String :=
  let cls := _class_name test_name
  "\"\"\"API tests for " ++ test_name ++ ".\"\"\"\n\nimport pytest\nimport requests\n\n\n@pytest.mark.api\nclass Test" ++ (cls.replace "Page" "") ++ "API:\n    \"\"\"API test suite for " ++ test_name ++ ".\"\"\"\n\n    BASE_URL = \"" ++ base_url ++ "\"\n\n    def test_example_api_call(self) -> None:\n        \"\"\"Example API test - replace with actual test logic.\"\"\"\n        response = requests.get(f\"\x7bself.BASE_URL\x7d/api/endpoint\")\n        assert response.status_code == 200, \"Replace with actual test\"\n"

/-- The `pages/__init__.py` contents written at the end of
`_create_example_selenium_page` and `_create_example_playwright_page`. -/
def examplePagesInitContent : String :=
  "from .base_page import BasePage\nfrom .example_page import ExamplePage\n"

/-- The root `__init__.py` written by `init`. -/
def rootInitContent : String :=
  "\"\"\"Test automation framework package.\"\"\"\n"

/-- The `pytest.ini` written by `init`. -/
def pytestIniContent (driver_type : String) : String :=
  "[pytest]\naddopts = -v --strict-markers --tb=short\ntestpaths = tests" ++ (if driver_type = "both" then " tests_pw" else "") ++ "\npython_files = test_*.py\npython_classes = Test*\npython_functions = test_*\nmarkers =\n    smoke: Smoke tests (critical path)\n    regression: Regression test suite\n    critical: Critical functionality tests\n    selenium: Selenium WebDriver tests\n    playwright: Playwright tests\n    ui: UI layer tests\n    api: API layer tests\n"

/-- The `requirements.txt` written by `init`: driver- and feature-dependent
union of pinned requirements, lexicographically sorted, newline-joined. -/
def requirementsContent (driver_type : String) (features : List String) : String :=
  let reqs := ["pytest>=7.4,<9"]
  let reqs := reqs ++ (if driver_type = "selenium" || driver_type = "both" then ["selenium>=4.14,<5"] else [])
  let reqs := reqs ++ (if driver_type = "playwright" || driver_type = "both" then ["playwright>=1.41,<2", "pytest-playwright>=0.4.4,<0.5"] else [])
  let reqs := reqs ++ (if features.contains "allure" then ["allure-pytest>=2.13,<3"] else [])
  let reqs := reqs ++ (if features.contains "parallel" then ["pytest-xdist>=3.3,<4"] else [])
  let reqs := reqs ++ (if features.contains "flaky_retry" then ["pytest-retry>=1.5,<2"] else [])
  let reqs := reqs ++ (if features.contains "api_testing" then ["requests>=2.31,<3"] else [])
  let reqs := reqs ++ ["structlog>=23.1,<25", "pyyaml>=6.0,<7"]
  String.intercalate "\n" (reqs.mergeSort (fun a b => decide (a ≤ b))) ++ "\n"

/-- The `README.md` written by `init`. -/
def readmeContent (name base_url driver_type : String) : String :=
  "# " ++ name ++ "\n\nAutomation testing framework generated with qa-framework-gen.\n\n## Setup\n\n```bash\n# Install dependencies\npip install -r requirements.txt\n\n# Install Playwright browsers (if using Playwright)\nplaywright install\n```\n\n## Running Tests\n\n```bash\n# Run all tests\npytest\n\n# Run with parallel execution\npytest -n auto\n\n# Run specific marker\npytest -m smoke\n```\n\n## Configuration\n\nProject configuration is stored in `.framework-config.yml`.\n\nBase URL: " ++ base_url ++ "\nDriver: " ++ driver_type ++ "\n"

/-- The fixed `.gitignore` written by `init` (config-independent constant). -/
def gitignoreContent : String :=
  "# Python\n__pycache__/\n*.py[cod]\n*$py.class\n*.so\n.Python\nbuild/\ndevelop-eggs/\ndist/\ndownloads/\neggs/\n.eggs/\nlib/\nlib64/\nparts/\nsdist/\nvar/\nwheels/\n*.egg-info/\n.installed.cfg\n*.egg\n\n# Virtual environments\nvenv/\nENV/\nenv/\n.venv\n\n# Testing\n.pytest_cache/\n.coverage\nhtmlcov/\n*.html\nallure-results/\nallure-report/\n\n# IDE\n.vscode/\n.idea/\n*.swp\n*.swo\n*~\n\n# OS\n.DS_Store\nThumbs.db\n"

/-! ### The generation orchestrator: `init`, `add_page`, `add_test`

CLI commands become functions from a filesystem (plus the command's
arguments and the answers the excluded interactive-prompt collaborator
would supply) to a filesystem and an exit code; `sys.exit(1)` and an
exception caught by `main` are exit code 1, success is 0. -/

/-- `_load_config`: read `.framework-config.yml` under the project root,
`none` when absent. -/
def _load_config (fs : Fs) (project_root : FsPath) : Option RawConfig :=
  match fsGet fs (project_root ++ [".framework-config.yml"]) with
  | some (.file (.yaml cfg)) => some cfg
  | _ => none

/-- The `__init__.py` update shared verbatim by `_create_selenium_page` and
`_create_playwright_page` (lines 631–639 and 664–672): append the import
line unless the stripped line already occurs in the existing text; create
the file with just the line when absent. -/
def updateInitFile (fs : Fs) (init_file : FsPath) (import_line : String) : Fs :=
  match fsGet fs init_file with
  | none => fsWrite fs init_file (.file (.text import_line))
  | some node =>
    match readText node with
    | some existing =>
      if containsSub existing (pyStrip import_line) then fs
      else fsWrite fs init_file (.file (.text (existing ++ import_line)))
    | none => fs

/-- `_create_selenium_page`: write the page-object file, then update the
package marker `__init__.py`. -/
def _create_selenium_page (fs : Fs) (pages_dir : FsPath)
    (module_slug cls display_name url : String) : Fs :=
  let content := seleniumPageContent display_name cls url
  let fs := fsWrite fs (pages_dir ++ [module_slug ++ "_page.py"]) (.file (.text content))
  updateInitFile fs (pages_dir ++ ["__init__.py"])
    ("from ." ++ module_slug ++ "_page import " ++ cls ++ "\n")

/-- `_create_playwright_page`: write the page-object file, then update the
package marker `__init__.py`. -/
def _create_playwright_page (fs : Fs) (pages_dir : FsPath)
    (module_slug cls display_name url : String) : Fs :=
  let content := playwrightPageContent display_name cls url
  let fs := fsWrite fs (pages_dir ++ [module_slug ++ "_page.py"]) (.file (.text content))
  updateInitFile fs (pages_dir ++ ["__init__.py"])
    ("from ." ++ module_slug ++ "_page import " ++ cls ++ "\n")

/-- The `init` command.  `driverAnswer`, `browsersAnswer` and
`featuresAnswer` stand for the interactive selections (already mapped to
their identifier form), `created` for the generation timestamp.  The
conflict check precedes every filesystem mutation, exactly as in the
source. -/
def initCmd (fs : Fs) (name base_url : String) (directory : FsPath) (force : Bool)
    (driverAnswer : String) (browsersAnswer : List String)
    (featuresAnswer : List String) (created : String) : Fs × Nat :=
  let driver_type := driverAnswer
  let browsers := if driver_type = "selenium" || driver_type = "both"
    then browsersAnswer else ["chromium", "firefox", "webkit"]
  let features := featuresAnswer
  let project_slug := _package_name name
  let target_dir := directory ++ [project_slug]
  if fsExists fs target_dir && !force && fsHasChild fs target_dir then (fs, 1)
  else
    let fs := fsMkdirp fs target_dir
    let context : InitContext :=
      { project_name := name
      , project_slug := project_slug
      , project_package := _package_name name
      , base_url := rstripSlashes base_url
      , driver_type := driver_type
      , browsers := browsers
      , featuresSel := features }
    let fs := fsWrite fs (target_dir ++ [".framework-config.yml"])
      (.file (.yaml (_generate_config context created)))
    let fs :=
      if driver_type = "selenium" then
        fsMkdirp (fsMkdirp fs (target_dir ++ ["pages"])) (target_dir ++ ["tests"])
      else if driver_type = "playwright" then
        fsMkdirp (fsMkdirp fs (target_dir ++ ["pages_pw"])) (target_dir ++ ["tests_pw"])
      else
        fsMkdirp (fsMkdirp (fsMkdirp (fsMkdirp fs (target_dir ++ ["pages"]))
          (target_dir ++ ["tests"])) (target_dir ++ ["pages_pw"])) (target_dir ++ ["tests_pw"])
    let fs := fsMkdirp fs (target_dir ++ ["tests", "data"])
    let fs := fsWrite fs (target_dir ++ ["__init__.py"]) (.file (.text rootInitContent))
    let fs := if fsExists fs (target_dir ++ ["pages"]) then
        fsWrite fs (target_dir ++ ["pages", "__init__.py"]) (.file (.text "")) else fs
    let fs := if fsExists fs (target_dir ++ ["pages_pw"]) then
        fsWrite fs (target_dir ++ ["pages_pw", "__init__.py"]) (.file (.text "")) else fs
    let fs := if fsExists fs (target_dir ++ ["tests"]) then
        fsWrite fs (target_dir ++ ["tests", "__init__.py"]) (.file (.text "")) else fs
    let fs := if fsExists fs (target_dir ++ ["tests_pw"]) then
        fsWrite fs (target_dir ++ ["tests_pw", "__init__.py"]) (.file (.text "")) else fs
    let fs :=
      if driver_type = "selenium" || driver_type = "both" then
        let fs := fsWrite fs (target_dir ++ ["pages", "base_page.py"])
          (.file (.fixed "selenium_base_page" []))
        let fs := fsWrite fs (target_dir ++ ["pages", "example_page.py"])
          (.file (.fixed "example_selenium_page" [base_url]))
        let fs := fsWrite fs (target_dir ++ ["pages", "__init__.py"])
          (.file (.text examplePagesInitContent))
        let fs := fsWrite fs (target_dir ++ ["tests", "test_example.py"])
          (.file (.fixed "example_selenium_test" []))
        fsWrite fs (target_dir ++ ["conftest.py"]) (.file (.fixed "selenium_conftest" [base_url]))
      else fs
    let fs :=
      if driver_type = "playwright" || driver_type = "both" then
        let fs := fsWrite fs (target_dir ++ ["pages_pw", "base_page.py"])
          (.file (.fixed "playwright_base_page" [base_url]))
        let fs := fsWrite fs (target_dir ++ ["pages_pw", "example_page.py"])
          (.file (.fixed "example_playwright_page" [base_url]))
        let fs := fsWrite fs (target_dir ++ ["pages_pw", "__init__.py"])
          (.file (.text examplePagesInitContent))
        let fs := fsWrite fs (target_dir ++ ["tests_pw", "test_example_pw.py"])
          (.file (.fixed "example_playwright_test" []))
        if driver_type = "playwright" then
          fsWrite fs (target_dir ++ ["conftest.py"]) (.file (.fixed "playwright_conftest" [base_url]))
        else fs
      else fs
    let fs := fsWrite fs (target_dir ++ ["pytest.ini"]) (.file (.text (pytestIniContent driver_type)))
    let fs := fsWrite fs (target_dir ++ ["requirements.txt"])
      (.file (.text (requirementsContent driver_type features)))
    let fs := fsWrite fs (target_dir ++ ["README.md"])
      (.file (.text (readmeContent name base_url driver_type)))
    let fs := fsWrite fs (target_dir ++ [".gitignore"]) (.file (.text gitignoreContent))
    (fs, 0)

/-- The `add_page` command.  `driverAnswer` and `urlAnswer` stand for the
interactive answers used when the corresponding option is not supplied
(`urlAnswer` defaults to `"/"` in the prompt).  A missing manifest, or a
manifest without the accessed keys (a `KeyError` caught by `main`), exits
with code 1 before any write. -/
def add_page (fs : Fs) (project_root : FsPath) (page_name : String)
    (urlOpt : Option String) (driverOpt : Option String)
    (driverAnswer urlAnswer : String) : Fs × Nat :=
  match _load_config fs project_root with
  | none => (fs, 1)
  | some config =>
    match config.driver with
    | none => (fs, 1)
    | some drv =>
      let config_driver := drv.type_
      let driver := match driverOpt with
        | some d => d
        | none => if config_driver = "both" then driverAnswer else config_driver
      match config.project with
      | none => (fs, 1)
      | some proj =>
        match proj.base_url with
        | none => (fs, 1)
        | some base_url =>
          let url := urlOpt.getD urlAnswer
          let full_url := if pyStartsWith url "/" then base_url ++ url else url
          let cls := _class_name page_name
          let module_slug := _package_name page_name
          let fs := if driver = "selenium" || driver = "both" then
              _create_selenium_page fs (project_root ++ ["pages"]) module_slug cls page_name full_url
            else fs
          let fs := if driver = "playwright" || driver = "both" then
              _create_playwright_page fs (project_root ++ ["pages_pw"]) module_slug cls page_name full_url
            else fs
          (fs, 0)

/-- The `add_test` command.  `typeAnswer` and `driverAnswer` stand for the
interactive answers used when the corresponding option is not supplied.
The `FeatureDisabled` check on `api_testing` precedes every write. -/
def add_test (fs : Fs) (project_root : FsPath) (test_name : String)
    (testTypeOpt : Option String) (driverOpt : Option String)
    (typeAnswer driverAnswer : String) : Fs × Nat :=
  match _load_config fs project_root with
  | none => (fs, 1)
  | some config =>
    match config.features with
    | none => (fs, 1)
    | some feats =>
      let api_enabled := feats.api_testing.getD false
      let test_type := testTypeOpt.getD typeAnswer
      if test_type = "api" && !api_enabled then (fs, 1)
      else if test_type = "ui" then
        match config.driver with
        | none => (fs, 1)
        | some drv =>
          let driver := match driverOpt with
            | some d => d
            | none => if drv.type_ = "both" then driverAnswer else drv.type_
          let module_slug := _package_name test_name
          let fs := if driver = "selenium" || driver = "both" then
              fsWrite fs (project_root ++ ["tests", "test_" ++ module_slug ++ ".py"])
                (.file (.text (seleniumTestContent test_name)))
            else fs
          let fs := if driver = "playwright" || driver = "both" then
              fsWrite fs (project_root ++ ["tests_pw", "test_" ++ module_slug ++ "_pw.py"])
                (.file (.text (playwrightTestContent test_name)))
            else fs
          (fs, 0)
      else
        match config.project with
        | none => (fs, 1)
        | some proj =>
          match proj.base_url with
          | none => (fs, 1)
          | some base_url =>
            let module_slug := _package_name test_name
            (fsWrite fs (project_root ++ ["tests", "test_" ++ module_slug ++ "_api.py"])
              (.file (.text (apiTestContent test_name base_url))), 0)

/-! ### Character-level lemmas -/

theorem char_toNat_ofNat (n : Nat) (h : n < 55296) : (Char.ofNat n).toNat = n := by
  have hv : Nat.isValidChar n := Or.inl h
  simp [Char.ofNat, hv, Char.ofNatAux, Char.toNat, UInt32.toNat]

theorem lowerSlug_asciiLower {c : Char} (h : isAlnumAscii c = true) :
    isLowerSlugChar (asciiLower c) = true := by
  unfold isAlnumAscii at h
  unfold asciiLower isLowerSlugChar
  simp only [Bool.or_eq_true, Bool.and_eq_true, decide_eq_true_eq] at h
  by_cases hc : (65 ≤ c.toNat && c.toNat ≤ 90) = true
  · rw [if_pos hc]
    simp only [Bool.and_eq_true, decide_eq_true_eq] at hc
    simp only [Bool.or_eq_true, Bool.and_eq_true, decide_eq_true_eq]
    rw [char_toNat_ofNat _ (by omega)]
    omega
  · rw [if_neg hc]
    simp only [Bool.and_eq_true, decide_eq_true_eq, not_and, not_le] at hc
    simp only [Bool.or_eq_true, Bool.and_eq_true, decide_eq_true_eq]
    omega

theorem alnum_asciiLower {c : Char} (h : isAlnumAscii c = true) :
    isAlnumAscii (asciiLower c) = true := by
  have := lowerSlug_asciiLower h
  unfold isLowerSlugChar at this
  unfold isAlnumAscii
  simp only [Bool.or_eq_true, Bool.and_eq_true, decide_eq_true_eq] at this ⊢
  omega

theorem alnum_asciiUpper {c : Char} (h : isAlnumAscii c = true) :
    isAlnumAscii (asciiUpper c) = true := by
  unfold isAlnumAscii at h
  unfold asciiUpper isAlnumAscii
  simp only [Bool.or_eq_true, Bool.and_eq_true, decide_eq_true_eq] at h
  by_cases hc : (97 ≤ c.toNat && c.toNat ≤ 122) = true
  · rw [if_pos hc]
    simp only [Bool.and_eq_true, decide_eq_true_eq] at hc
    simp only [Bool.or_eq_true, Bool.and_eq_true, decide_eq_true_eq]
    rw [char_toNat_ofNat _ (by omega)]
    omega
  · rw [if_neg hc]
    simp only [Bool.and_eq_true, decide_eq_true_eq, not_and, not_le] at hc
    simp only [Bool.or_eq_true, Bool.and_eq_true, decide_eq_true_eq]
    omega

theorem lowerSlug_alnum {c : Char} (h : isLowerSlugChar c = true) :
    isAlnumAscii c = true := by
  unfold isLowerSlugChar at h
  unfold isAlnumAscii
  simp only [Bool.or_eq_true, Bool.and_eq_true, decide_eq_true_eq] at h ⊢
  omega

theorem alnum_toNat_ge {c : Char} (h : isAlnumAscii c = true) : 48 ≤ c.toNat := by
  unfold isAlnumAscii at h
  simp only [Bool.or_eq_true, Bool.and_eq_true, decide_eq_true_eq] at h
  omega

theorem alnum_ne_dash {c : Char} (h : isAlnumAscii c = true) : c ≠ '-' := by
  intro hc
  subst hc
  exact absurd h (by decide)

theorem alnum_ne_newline {c : Char} (h : isAlnumAscii c = true) : c ≠ '\n' := by
  intro hc
  subst hc
  exact absurd h (by decide)

theorem asciiLower_dash : asciiLower '-' = '-' := by decide

/-! ### Equation and structure lemmas for the run-based recursions -/

theorem reSubGo_true (cs : List Char) :
    reSubGo true cs = reSubGo false (cs.dropWhile (fun d => !isAlnumAscii d)) := by
  induction cs with
  | nil => rfl
  | cons c cs ih =>
    by_cases h : isAlnumAscii c = true
    · rw [List.dropWhile_cons, if_neg (by simp [h])]
      simp [reSubGo, h]
    · have h' : isAlnumAscii c = false := by simpa using h
      rw [List.dropWhile_cons, if_pos (by simp [h'])]
      simpa [reSubGo, h'] using ih

theorem reSub_nil : reSub [] = [] := rfl

theorem reSub_cons_alnum {c : Char} (h : isAlnumAscii c = true) (cs : List Char) :
    reSub (c :: cs) = c :: reSub cs := by
  simp [reSub, reSubGo, h]

theorem reSub_cons_nonalnum {c : Char} (h : isAlnumAscii c = false) (cs : List Char) :
    reSub (c :: cs) = '-' :: reSub (cs.dropWhile (fun d => !isAlnumAscii d)) := by
  unfold reSub
  rw [← reSubGo_true cs]
  simp [reSubGo, h]

theorem runTokens_nil : runTokens [] = [] := by rw [runTokens]

theorem runTokens_cons_alnum {c : Char} (h : isAlnumAscii c = true) (cs : List Char) :
    runTokens (c :: cs) =
      (c :: cs.takeWhile isAlnumAscii) :: runTokens (cs.dropWhile isAlnumAscii) := by
  rw [runTokens, if_pos h]

theorem runTokens_cons_nonalnum {c : Char} (h : isAlnumAscii c = false) (cs : List Char) :
    runTokens (c :: cs) = runTokens cs := by
  rw [runTokens, if_neg (by simp [h])]

theorem reSplitGo_true (cs : List Char) :
    reSplitGo true cs = reSplitGo false (cs.dropWhile (fun d => !isAlnumAscii d)) := by
  induction cs with
  | nil => rfl
  | cons c cs ih =>
    by_cases h : isAlnumAscii c = true
    · rw [List.dropWhile_cons, if_neg (by simp [h])]
      simp [reSplitGo, h]
    · have h' : isAlnumAscii c = false := by simpa using h
      rw [List.dropWhile_cons, if_pos (by simp [h'])]
      simpa [reSplitGo, h'] using ih

theorem reSplitRuns_nil : reSplitRuns [] = [[]] := rfl

theorem reSplitRuns_cons_alnum {c : Char} (h : isAlnumAscii c = true) (cs : List Char) :
    reSplitRuns (c :: cs) =
      match reSplitRuns cs with
      | [] => [[c]]
      | g :: gs => (c :: g) :: gs := by
  simp [reSplitRuns, reSplitGo, h]

theorem reSplitRuns_cons_nonalnum {c : Char} (h : isAlnumAscii c = false) (cs : List Char) :
    reSplitRuns (c :: cs) = [] :: reSplitRuns (cs.dropWhile (fun d => !isAlnumAscii d)) := by
  unfold reSplitRuns
  rw [← reSplitGo_true cs]
  simp [reSplitGo, h]

theorem runTokens_dropWhile (l : List Char) :
    runTokens (l.dropWhile (fun d => !isAlnumAscii d)) = runTokens l := by
  induction l with
  | nil => rfl
  | cons c cs ih =>
    by_cases h : isAlnumAscii c = true
    · rw [List.dropWhile_cons, if_neg (by simp [h])]
    · have h' : isAlnumAscii c = false := by simpa using h
      rw [List.dropWhile_cons, if_pos (by simp [h']), ih, runTokens_cons_nonalnum h']

theorem reSub_append_alnum {t : List Char} (ht : ∀ c ∈ t, isAlnumAscii c = true)
    (r : List Char) : reSub (t ++ r) = t ++ reSub r := by
  induction t with
  | nil => rfl
  | cons c ts ih =>
    rw [List.cons_append, reSub_cons_alnum (ht c (by simp)),
      ih (fun d hd => ht d (by simp [hd])), List.cons_append]

theorem dropWhile_head_false {p : Char → Bool} {l : List Char} {c : Char} {cs : List Char}
    (h : l.dropWhile p = c :: cs) : p c = false := by
  have hh := List.head?_dropWhile_not p l
  rw [h] at hh
  simpa using hh

theorem dropWhile_head_not {p : Char → Bool} {c : Char} (hc : p c = false) (cs : List Char) :
    (c :: cs).dropWhile p = c :: cs := by
  rw [List.dropWhile_cons, if_neg (by simp [hc])]

/-! ### `dropTrail` algebra -/

theorem dropTrail_append (p : Char → Bool) (a b : List Char) :
    dropTrail p (a ++ b) =
      if dropTrail p b = [] then dropTrail p a else a ++ dropTrail p b := by
  unfold dropTrail
  rw [List.reverse_append, List.dropWhile_append]
  by_cases h : (List.dropWhile p b.reverse).isEmpty = true
  · have hb : (List.dropWhile p b.reverse).reverse = [] := by
      rw [List.isEmpty_iff] at h
      simp [h]
    rw [if_pos h, if_pos hb]
  · have hb : (List.dropWhile p b.reverse).reverse ≠ [] := by
      rw [List.isEmpty_iff] at h
      simpa using h
    rw [if_neg h, if_neg hb, List.reverse_append, List.reverse_reverse]

theorem dropTrail_all_false {p : Char → Bool} {l : List Char}
    (h : ∀ c ∈ l, p c = false) : dropTrail p l = l := by
  unfold dropTrail
  have hrev : l.reverse.dropWhile p = l.reverse := by
    cases hr : l.reverse with
    | nil => rfl
    | cons c cs =>
      have hc : c ∈ l := by
        have hm : c ∈ l.reverse := by rw [hr]; simp
        simpa using hm
      rw [dropWhile_head_not (h c hc)]
  rw [hrev, List.reverse_reverse]

/-! ### `List.intercalate` helpers -/

theorem intercalate_nil_groups (s : List Char) :
    List.intercalate s ([] : List (List Char)) = [] := by
  simp [List.intercalate]

theorem intercalate_single (s g : List Char) : List.intercalate s [g] = g := by
  simp [List.intercalate]

theorem intercalate_cons_ne (s g : List Char) (gs : List (List Char)) (h : gs ≠ []) :
    List.intercalate s (g :: gs) = g ++ s ++ List.intercalate s gs := by
  cases gs with
  | nil => exact absurd rfl h
  | cons a t => simp [List.intercalate, List.intersperse]

theorem intercalate_cons_ne_nil (s g : List Char) (gs : List (List Char)) (hg : g ≠ []) :
    List.intercalate s (g :: gs) ≠ [] := by
  cases gs with
  | nil => simpa [intercalate_single] using hg
  | cons a t =>
    rw [intercalate_cons_ne s g _ (by simp)]
    simp [hg]

/-! ### Structure of `runTokens` groups -/

theorem mem_runTokens (l : List Char) :
    ∀ g ∈ runTokens l, (∀ c ∈ g, isAlnumAscii c = true) ∧ g ≠ [] := by
  have H : ∀ (n : Nat) (l : List Char), l.length ≤ n →
      ∀ g ∈ runTokens l, (∀ c ∈ g, isAlnumAscii c = true) ∧ g ≠ [] := by
    intro n
    induction n with
    | zero =>
      intro l hl
      have : l = [] := by
        cases l with
        | nil => rfl
        | cons c cs => simp at hl
      subst this
      simp [runTokens_nil]
    | succ n ih =>
      intro l hl g hg
      cases l with
      | nil => simp [runTokens_nil] at hg
      | cons c cs =>
        by_cases hc : isAlnumAscii c = true
        · rw [runTokens_cons_alnum hc] at hg
          rcases List.mem_cons.mp hg with hg | hg
          · subst hg
            refine ⟨?_, by simp⟩
            intro d hd
            rcases List.mem_cons.mp hd with hd | hd
            · subst hd; exact hc
            · exact List.mem_takeWhile_imp hd
          · have hlen : (cs.dropWhile isAlnumAscii).length ≤ n := by
              have h1 := (List.dropWhile_sublist isAlnumAscii (l := cs)).length_le
              simp only [List.length_cons] at hl
              omega
            exact ih _ hlen g hg
        · have hc' : isAlnumAscii c = false := by simpa using hc
          rw [runTokens_cons_nonalnum hc'] at hg
          have hlen : cs.length ≤ n := by
            simp only [List.length_cons] at hl
            omega
          exact ih _ hlen g hg
  exact H l.length l le_rfl

theorem runTokens_head_ne_nil {l : List Char} {g : List Char} {gs : List (List Char)}
    (h : runTokens l = g :: gs) : g ≠ [] :=
  ((mem_runTokens l g (by rw [h]; simp)).2)

/-- The trailing-trim normal form of `reSub`: after removing trailing
hyphens, what is left is an optional single leading hyphen (present exactly
when the input starts with a non-alphanumeric character) followed by the
hyphen-joined alphanumeric runs; it is empty when there are no runs. -/
theorem dropTrail_reSub (l : List Char) :
    dropTrail (fun c => c = '-') (reSub l) =
      if runTokens l = [] then []
      else (if isAlnumAscii (l.headD '-') = true then ([] : List Char) else ['-']) ++
        List.intercalate ['-'] (runTokens l) := by
  have H : ∀ (n : Nat) (l : List Char), l.length ≤ n →
      dropTrail (fun c => c = '-') (reSub l) =
        if runTokens l = [] then []
        else (if isAlnumAscii (l.headD '-') = true then ([] : List Char) else ['-']) ++
          List.intercalate ['-'] (runTokens l) := by
    intro n
    induction n with
    | zero =>
      intro l hl
      have : l = [] := by
        cases l with
        | nil => rfl
        | cons c cs => simp at hl
      subst this
      simp [reSub_nil, runTokens_nil, dropTrail]
    | succ n ih =>
      intro l hl
      cases l with
      | nil => simp [reSub_nil, runTokens_nil, dropTrail]
      | cons c cs =>
        by_cases hc : isAlnumAscii c = true
        · -- alphanumeric head: the run `c :: t` is emitted verbatim
          have hcs : cs.takeWhile isAlnumAscii ++ cs.dropWhile isAlnumAscii = cs :=
            List.takeWhile_append_dropWhile isAlnumAscii cs
          have hsub : reSub (c :: cs) =
              (c :: cs.takeWhile isAlnumAscii) ++ reSub (cs.dropWhile isAlnumAscii) := by
            rw [reSub_cons_alnum hc]
            conv_lhs => rw [← hcs]
            rw [reSub_append_alnum (fun d hd => List.mem_takeWhile_imp hd), List.cons_append]
          have htok := runTokens_cons_alnum hc cs
          have hct : ∀ d ∈ (c :: cs.takeWhile isAlnumAscii), isAlnumAscii d = true := by
            intro d hd
            rcases List.mem_cons.mp hd with hd | hd
            · subst hd; exact hc
            · exact List.mem_takeWhile_imp hd
          have hctf : ∀ d ∈ (c :: cs.takeWhile isAlnumAscii),
              (fun c => decide (c = '-')) d = false := by
            intro d hd
            simpa using alnum_ne_dash (hct d hd)
          have hrlen : (cs.dropWhile isAlnumAscii).length ≤ n := by
            have h1 := (List.dropWhile_sublist isAlnumAscii (l := cs)).length_le
            simp only [List.length_cons] at hl
            omega
          rw [hsub, dropTrail_append, htok]
          by_cases hrt : runTokens (cs.dropWhile isAlnumAscii) = []
          · have hdt : dropTrail (fun c => c = '-') (reSub (cs.dropWhile isAlnumAscii)) = [] := by
              rw [ih _ hrlen, if_pos hrt]
            rw [if_pos hdt, dropTrail_all_false hctf]
            rw [if_neg (by simp), hrt, intercalate_single]
            simp [hc]
          · cases hr : cs.dropWhile isAlnumAscii with
            | nil => rw [hr, runTokens_nil] at hrt; exact absurd rfl hrt
            | cons d rs =>
              have hd : isAlnumAscii d = false := dropWhile_head_false hr
              have hih := ih _ hrlen
              rw [hr] at hih hrt
              rw [if_neg hrt] at hih
              simp only [List.headD_cons, hd] at hih
              have hne : dropTrail (fun c => c = '-') (reSub (d :: rs)) ≠ [] := by
                rw [hih]
                cases hrr : runTokens (d :: rs) with
                | nil => exact absurd hrr hrt
                | cons g gs =>
                  have hgne := runTokens_head_ne_nil hrr
                  simp only [Bool.false_eq_true, if_neg]
                  intro hcontra
                  rcases List.append_eq_nil.mp hcontra with ⟨-, h2⟩
                  exact intercalate_cons_ne_nil ['-'] g gs hgne h2
              rw [if_neg hne, hih]
              rw [if_neg (by simp), intercalate_cons_ne _ _ _ hrt]
              simp [hc, hd, List.append_assoc]
        · -- non-alphanumeric head: a single hyphen precedes the rest
          have hc' : isAlnumAscii c = false := by simpa using hc
          have hl' : (cs.dropWhile (fun d => !isAlnumAscii d)).length ≤ n := by
            have h1 := (List.dropWhile_sublist (fun d => !isAlnumAscii d) (l := cs)).length_le
            simp only [List.length_cons] at hl
            omega
          have htok : runTokens (c :: cs) = runTokens (cs.dropWhile (fun d => !isAlnumAscii d)) := by
            rw [runTokens_cons_nonalnum hc', runTokens_dropWhile]
          rw [reSub_cons_nonalnum hc',
            show ('-' :: reSub (cs.dropWhile (fun d => !isAlnumAscii d))) =
              ['-'] ++ reSub (cs.dropWhile (fun d => !isAlnumAscii d)) from rfl,
            dropTrail_append, htok]
          by_cases hrt : runTokens (cs.dropWhile (fun d => !isAlnumAscii d)) = []
          · have hdt : dropTrail (fun c => c = '-')
                (reSub (cs.dropWhile (fun d => !isAlnumAscii d))) = [] := by
              rw [ih _ hl', if_pos hrt]
            rw [if_pos hdt, if_pos hrt]
            rfl
          · cases hr : cs.dropWhile (fun d => !isAlnumAscii d) with
            | nil => rw [hr, runTokens_nil] at hrt; exact absurd rfl hrt
            | cons d rs =>
              have hd : isAlnumAscii d = true := by
                have := dropWhile_head_false hr
                simpa using this
              have hih := ih _ hl'
              rw [hr] at hih hrt
              rw [if_neg hrt] at hih
              simp only [List.headD_cons, hd, if_pos, List.nil_append] at hih
              have hne : dropTrail (fun c => c = '-') (reSub (d :: rs)) ≠ [] := by
                rw [hih]
                cases hrr : runTokens (d :: rs) with
                | nil => exact absurd hrr hrt
                | cons g gs => exact intercalate_cons_ne_nil ['-'] g gs (runTokens_head_ne_nil hrr)
              rw [if_neg hne, hih, if_neg hrt]
              simp [hc']
  exact H l.length l le_rfl

/-- Normal form of the slug pipeline before lower-casing:
`re.sub(...).strip("-")` is exactly the hyphen-joined list of maximal
alphanumeric runs. -/
theorem slug_nf (l : List Char) :
    dropAround (fun c => c = '-') (reSub l) = List.intercalate ['-'] (runTokens l) := by
  unfold dropAround
  cases l with
  | nil => simp [reSub_nil, runTokens_nil, intercalate_nil_groups, dropTrail]
  | cons c cs =>
    by_cases hc : isAlnumAscii c = true
    · rw [reSub_cons_alnum hc, dropWhile_head_not (by simpa using alnum_ne_dash hc),
        ← reSub_cons_alnum hc, dropTrail_reSub]
      by_cases h0 : runTokens (c :: cs) = []
      · rw [if_pos h0, h0, intercalate_nil_groups]
      · rw [if_neg h0]
        simp [hc]
    · have hc' : isAlnumAscii c = false := by simpa using hc
      rw [reSub_cons_nonalnum hc', List.dropWhile_cons, if_pos (by simp)]
      have htok : runTokens (c :: cs) = runTokens (cs.dropWhile (fun d => !isAlnumAscii d)) := by
        rw [runTokens_cons_nonalnum hc', runTokens_dropWhile]
      rw [htok]
      cases hr : cs.dropWhile (fun d => !isAlnumAscii d) with
      | nil => simp [reSub_nil, runTokens_nil, intercalate_nil_groups, dropTrail]
      | cons d rs =>
        have hd : isAlnumAscii d = true := by
          have := dropWhile_head_false hr
          simpa using this
        rw [reSub_cons_alnum hd, dropWhile_head_not (by simpa using alnum_ne_dash hd),
          ← reSub_cons_alnum hd, dropTrail_reSub]
        by_cases h0 : runTokens (d :: rs) = []
        · rw [if_pos h0, h0, intercalate_nil_groups]
        · rw [if_neg h0]
          simp [hd]

/-! ### `reSplitRuns` versus `runTokens` -/

theorem reSplitRuns_ne_nil (l : List Char) : reSplitRuns l ≠ [] := by
  cases l with
  | nil => rw [reSplitRuns_nil]; simp
  | cons c cs =>
    by_cases hc : isAlnumAscii c = true
    · rw [reSplitRuns_cons_alnum hc]
      cases reSplitRuns cs with
      | nil => simp
      | cons g gs => simp
    · rw [reSplitRuns_cons_nonalnum (by simpa using hc)]
      simp

theorem reSplit_runTokens_aux : ∀ (n : Nat) (l : List Char), l.length ≤ n →
    ((reSplitRuns l).filter (fun t => t ≠ []) = runTokens l) ∧
    (∃ gs, reSplitRuns l = l.takeWhile isAlnumAscii :: gs ∧
      gs.filter (fun t => t ≠ []) = runTokens (l.dropWhile isAlnumAscii)) := by
  intro n
  induction n with
  | zero =>
    intro l hl
    have hnil : l = [] := by
      cases l with
      | nil => rfl
      | cons c cs => simp at hl
    subst hnil
    refine ⟨by simp [reSplitRuns_nil, runTokens_nil], ⟨[], ?_, by simp [runTokens_nil]⟩⟩
    simp [reSplitRuns_nil]
  | succ n ih =>
    intro l hl
    cases l with
    | nil =>
      refine ⟨by simp [reSplitRuns_nil, runTokens_nil], ⟨[], ?_, by simp [runTokens_nil]⟩⟩
      simp [reSplitRuns_nil]
    | cons c cs =>
      by_cases hc : isAlnumAscii c = true
      · have hcs : cs.length ≤ n := by
          simp only [List.length_cons] at hl
          omega
        obtain ⟨gs, hB1, hB2⟩ := (ih cs hcs).2
        have hsplit : reSplitRuns (c :: cs) = (c :: cs.takeWhile isAlnumAscii) :: gs := by
          rw [reSplitRuns_cons_alnum hc, hB1]
        constructor
        · rw [hsplit, runTokens_cons_alnum hc]
          simp only [List.filter_cons]
          rw [if_pos (by simp)]
          rw [hB2]
        · refine ⟨gs, ?_, ?_⟩
          · rw [hsplit, List.takeWhile_cons, if_pos hc]
          · rw [List.dropWhile_cons, if_pos hc, hB2]
      · have hc' : isAlnumAscii c = false := by simpa using hc
        have hl' : (cs.dropWhile (fun d => !isAlnumAscii d)).length ≤ n := by
          have h1 := (List.dropWhile_sublist (fun d => !isAlnumAscii d) (l := cs)).length_le
          simp only [List.length_cons] at hl
          omega
        have hA := (ih _ hl').1
        have htok : runTokens (c :: cs) = runTokens (cs.dropWhile (fun d => !isAlnumAscii d)) := by
          rw [runTokens_cons_nonalnum hc', runTokens_dropWhile]
        constructor
        · rw [reSplitRuns_cons_nonalnum hc']
          simp only [List.filter_cons]
          rw [if_neg (by simp)]
          rw [hA, htok]
        · refine ⟨reSplitRuns (cs.dropWhile (fun d => !isAlnumAscii d)), ?_, ?_⟩
          · rw [reSplitRuns_cons_nonalnum hc', List.takeWhile_cons, if_neg (by simp [hc'])]
          · rw [List.dropWhile_cons, if_neg (by simp [hc']), hA]
            exact htok.symm

/-- The filtered pieces of `re.split` are exactly the maximal alphanumeric
runs: the `_class_name` token list equals `runTokens`. -/
theorem filter_reSplitRuns (l : List Char) :
    (reSplitRuns l).filter (fun t => t ≠ []) = runTokens l :=
  (reSplit_runTokens_aux l.length l le_rfl).1

/-! ### Mapping over intercalations, `splitSep` structure -/

theorem map_intercalate_dash (f : Char → Char) (hf : f '-' = '-') (gs : List (List Char)) :
    (List.intercalate ['-'] gs).map f = List.intercalate ['-'] (gs.map (fun g => g.map f)) := by
  induction gs with
  | nil => simp [intercalate_nil_groups]
  | cons g t ih =>
    cases t with
    | nil => simp [intercalate_single]
    | cons a t2 =>
      rw [intercalate_cons_ne _ _ _ (by simp), List.map_append, List.map_append, ih]
      have hmap : (g :: a :: t2).map (fun g => g.map f) =
          g.map f :: (a :: t2).map (fun g => g.map f) := rfl
      rw [hmap, intercalate_cons_ne _ _ _ (by simp)]
      simp [hf]

theorem splitSep_nil (sep : Char) : splitSep sep [] = [[]] := rfl

theorem splitSep_cons_sep (sep : Char) (cs : List Char) :
    splitSep sep (sep :: cs) = [] :: splitSep sep cs := by
  rw [splitSep, if_pos rfl]

theorem splitSep_cons_ne {sep c : Char} (h : c ≠ sep) (cs : List Char) :
    splitSep sep (c :: cs) =
      match splitSep sep cs with
      | [] => [[c]]
      | g :: gs => (c :: g) :: gs := by
  rw [splitSep, if_neg h]

theorem splitSep_ne_nil (sep : Char) (l : List Char) : splitSep sep l ≠ [] := by
  cases l with
  | nil => simp [splitSep_nil]
  | cons c cs =>
    by_cases h : c = sep
    · subst h
      rw [splitSep_cons_sep]
      simp
    · rw [splitSep_cons_ne h]
      cases splitSep sep cs with
      | nil => simp
      | cons g gs => simp

theorem splitSep_no_sep {sep : Char} {l : List Char} (h : ∀ c ∈ l, c ≠ sep) :
    splitSep sep l = [l] := by
  induction l with
  | nil => rfl
  | cons c cs ih =>
    rw [splitSep_cons_ne (h c (by simp)), ih (fun d hd => h d (by simp [hd]))]

theorem splitSep_append_sep (sep : Char) (a b : List Char) :
    splitSep sep (a ++ sep :: b) = splitSep sep a ++ splitSep sep b := by
  induction a with
  | nil => rw [List.nil_append, splitSep_cons_sep, splitSep_nil, List.singleton_append]
  | cons c as ih =>
    by_cases h : c = sep
    · subst h
      rw [List.cons_append, splitSep_cons_sep, ih, splitSep_cons_sep, List.cons_append]
    · rw [List.cons_append, splitSep_cons_ne h, ih, splitSep_cons_ne h]
      cases hsa : splitSep sep as with
      | nil => exact absurd hsa (splitSep_ne_nil sep as)
      | cons g gs => simp

theorem splitSep_infix_aux (sep : Char) (l : List Char) :
    ((splitSep sep l).headD [] <+: l) ∧ (∀ g ∈ splitSep sep l, g <:+: l) := by
  induction l with
  | nil =>
    constructor
    · simp [splitSep_nil]
    · intro g hg
      rw [splitSep_nil] at hg
      simp only [List.mem_singleton] at hg
      simp [hg]
  | cons c cs ih =>
    by_cases hc : c = sep
    · subst hc
      rw [splitSep_cons_sep]
      constructor
      · simp
      · intro g hg
        rcases List.mem_cons.mp hg with hg | hg
        · subst hg
          exact ⟨[], c :: cs, by simp⟩
        · obtain ⟨s, t, hst⟩ := ih.2 g hg
          exact ⟨c :: s, t, by simp [← hst, List.append_assoc]⟩
    · cases hsc : splitSep sep cs with
      | nil => exact absurd hsc (splitSep_ne_nil sep cs)
      | cons g0 gs0 =>
        have hh : splitSep sep (c :: cs) = (c :: g0) :: gs0 := by
          rw [splitSep_cons_ne hc, hsc]
        have hg0 : g0 <+: cs := by
          have hhd := ih.1
          rw [hsc] at hhd
          simpa using hhd
        rw [hh]
        constructor
        · simp only [List.headD_cons]
          obtain ⟨t, ht⟩ := hg0
          exact ⟨t, by rw [List.cons_append, ht]⟩
        · intro g hg
          rcases List.mem_cons.mp hg with hg | hg
          · subst hg
            obtain ⟨t, ht⟩ := hg0
            exact (List.IsPrefix.isInfix ⟨t, by rw [List.cons_append, ht]⟩)
          · have hmem : g ∈ splitSep sep cs := by
              rw [hsc]
              simp [hg]
            obtain ⟨s, t, hst⟩ := ih.2 g hmem
            exact ⟨c :: s, t, by simp [← hst, List.append_assoc]⟩

theorem mem_splitSep_within {sep : Char} {l g : List Char}
    (h : g ∈ splitSep sep l) : g <:+: l :=
  (splitSep_infix_aux sep l).2 g h

theorem splitSep_intercalate {sep : Char} : ∀ (gs : List (List Char)), gs ≠ [] →
    (∀ g ∈ gs, ∀ c ∈ g, c ≠ sep) →
    splitSep sep (List.intercalate [sep] gs) = gs := by
  intro gs
  induction gs with
  | nil => intro h; exact absurd rfl h
  | cons g t ih =>
    intro _ hfree
    cases t with
    | nil =>
      rw [intercalate_single]
      exact splitSep_no_sep (hfree g (by simp))
    | cons a t2 =>
      rw [intercalate_cons_ne _ _ _ (by simp)]
      have hshape : g ++ [sep] ++ List.intercalate [sep] (a :: t2) =
          g ++ sep :: List.intercalate [sep] (a :: t2) := by simp
      rw [hshape, splitSep_append_sep, splitSep_no_sep (hfree g (by simp)),
        ih (by simp) (fun g' hg' => hfree g' (by simp [hg']))]
      rfl

theorem lowerSlug_ne_dash {c : Char} (h : isLowerSlugChar c = true) : c ≠ '-' :=
  alnum_ne_dash (lowerSlug_alnum h)

/-- `rstrip("/")` leaves no trailing slash: the serialized `base_url` of a
generated manifest never ends with `/`. -/
theorem rstripSlashes_no_trailing (s : String) :
    pyEndsWith (rstripSlashes s) "/" = false := by
  unfold pyEndsWith rstripSlashes dropTrail
  rw [decide_eq_false_iff_not]
  intro hsuf
  obtain ⟨t, ht⟩ := hsuf
  have hx : t ++ ['/'] = (s.toList.reverse.dropWhile (fun c => c = '/')).reverse := by
    simpa using ht
  have hrev := congrArg List.reverse hx
  rw [List.reverse_append, List.reverse_reverse] at hrev
  have hhead : s.toList.reverse.dropWhile (fun c => c = '/') = '/' :: t.reverse := by
    simpa using hrev.symm
  have hfalse := dropWhile_head_false hhead
  simp at hfalse

/-! ### Claim theorems -/

/-- C10: `to_locator_tuple` applied to `Locator(by, value)` returns exactly
the pair `(by, value)`, and applied to any tuple returns that tuple
unchanged. -/
theorem c10_to_locator_tuple_identity :
    (∀ b v : String, to_locator_tuple (.locator { by_ := b, value := v }) = (b, v)) ∧
      (∀ t : String × String, to_locator_tuple (.tuple t) = t) :=
  ⟨fun _ _ => rfl, fun _ => rfl⟩

/-- C3: `ProjectConfig.from_mapping` fails with a `ValidationError` exactly
when the input lacks a nested `project` mapping, or when `base_url` is absent
or empty after trimming whitespace; otherwise it returns a `ProjectConfig`. -/
theorem c3_from_mapping_error_iff (data : RawConfig) :
    ((∃ e, ProjectConfig.from_mapping data = .error e) ↔
      (data.project = none ∨
        ∃ p, data.project = some p ∧ pyStrip (p.base_url.getD "") = "")) ∧
    (¬ (data.project = none ∨
        ∃ p, data.project = some p ∧ pyStrip (p.base_url.getD "") = "") →
      ∃ cfg, ProjectConfig.from_mapping data = .ok cfg) := by
  cases hp : data.project with
  | none =>
    refine ⟨⟨fun _ => Or.inl rfl, fun _ => ?_⟩, fun hcon => absurd (Or.inl rfl) hcon⟩
    refine ⟨"Config must contain a 'project' mapping.", ?_⟩
    simp [ProjectConfig.from_mapping, hp]
  | some p =>
    by_cases hb : pyStrip (p.base_url.getD "") = ""
    · have herr : ProjectConfig.from_mapping data =
          .error "Project config requires a non-empty 'base_url'." := by
        simp [ProjectConfig.from_mapping, hp, hb]
      refine ⟨⟨fun _ => Or.inr ⟨p, rfl, hb⟩, fun _ => ⟨_, herr⟩⟩, fun hcon => ?_⟩
      exact absurd (Or.inr ⟨p, rfl, hb⟩) hcon
    · have hok : ProjectConfig.from_mapping data =
          .ok { name := p.name.getD "automation-project"
              , base_url := pyStrip (p.base_url.getD "")
              , default_browser := pyLower (p.default_browser.getD "chrome") } := by
        simp [ProjectConfig.from_mapping, hp, hb]
      constructor
      · constructor
        · intro ⟨e, he⟩
          rw [hok] at he
          cases he
        · intro hcases
          rcases hcases with hcases | ⟨p', hp', hb'⟩
          · simp at hcases
          · injection hp' with hpp
            subst hpp
            exact absurd hb' hb
      · intro _
        exact ⟨_, hok⟩

/-- C3 witness: a mapping with a trimmed non-empty `base_url` parses, and its
failure condition is indeed absent. -/
theorem c3_from_mapping_error_iff_witness :
    ((∃ e, ProjectConfig.from_mapping
        { project := some { name := some "demo", base_url := some "https://x.io" } } = .error e) ↔
      (({ project := some { name := some "demo", base_url := some "https://x.io" } } : RawConfig).project = none ∨
        ∃ p, ({ project := some { name := some "demo", base_url := some "https://x.io" } } : RawConfig).project = some p ∧
          pyStrip (p.base_url.getD "") = "")) ∧
    (¬ (({ project := some { name := some "demo", base_url := some "https://x.io" } } : RawConfig).project = none ∨
        ∃ p, ({ project := some { name := some "demo", base_url := some "https://x.io" } } : RawConfig).project = some p ∧
          pyStrip (p.base_url.getD "") = "") →
      ∃ cfg, ProjectConfig.from_mapping
        { project := some { name := some "demo", base_url := some "https://x.io" } } = .ok cfg) :=
  c3_from_mapping_error_iff { project := some { name := some "demo", base_url := some "https://x.io" } }

/-- C4 counterexample: Python's `str.capitalize()` lower-cases the rest of a
token, so the input token `ABC` contributes `Abc`, not `ABC`: the claim's
"remaining characters unchanged" reading is false on the code. -/
theorem c4_capitalize_counterexample :
    _class_name "ABC" = "AbcPage" ∧ classNameCore "ABC" = "Abc" ∧
      claimedTypeNameConcat "ABC" = "ABC" ∧
      classNameCore "ABC" ≠ claimedTypeNameConcat "ABC" := by
  decide

/-- C4 (amended): `_class_name`'s concatenation stage splits on runs of
non-alphanumeric characters and maps each token to its first character
upper-cased followed by the remaining characters lower-cased, then
concatenates the tokens. -/
theorem c4_capitalize_lowercases_rest (s : String) :
    classNameCore s = String.mk (List.flatten ((runTokens s.toList).map (fun t =>
      match t with
      | [] => ([] : List Char)
      | c :: cs => asciiUpper c :: cs.map asciiLower))) := by
  unfold classNameCore classNameTokens
  rw [filter_reSplitRuns]
  have hfun : (fun t => match t with
      | [] => ([] : List Char)
      | c :: cs => asciiUpper c :: cs.map asciiLower) = pyCapitalize := by
    funext t
    cases t <;> rfl
  rw [hfun]

/-- C2 counterexample: serializing `ProjectConfig(name=demo,
base_url=https://x.io, default_browser=firefox)` and parsing the mapping back
yields `default_browser = "chrome"` (the field is not serialized), so the
round trip is not the identity. -/
theorem c2_roundtrip_counterexample :
    ProjectConfig.from_mapping (serializeProjectConfig
        { name := "demo", base_url := "https://x.io", default_browser := "firefox" }
        "selenium" ["chrome"] [] "2024-01-01T00:00:00") =
      .ok { name := "demo", base_url := "https://x.io", default_browser := "chrome" } ∧
    ({ name := "demo", base_url := "https://x.io", default_browser := "chrome" } : ProjectConfig) ≠
      { name := "demo", base_url := "https://x.io", default_browser := "firefox" } :=
  ⟨rfl, by decide⟩

/-- C2 (amended): serializing a `ProjectConfig` to the manifest mapping and
parsing it back is the identity (for any driver/browser/feature context and
any generation timestamp) provided the config's `default_browser` is the
un-serialized default `"chrome"` and its `base_url` is non-empty with no
surrounding whitespace. -/
theorem c2_roundtrip_amended (cfg : ProjectConfig) (driver_type : String)
    (browsers : List String) (featuresSel : List String) (created : String)
    (hbrowser : cfg.default_browser = "chrome")
    (htrim : pyStrip cfg.base_url = cfg.base_url)
    (hne : cfg.base_url ≠ "") :
    ProjectConfig.from_mapping
      (serializeProjectConfig cfg driver_type browsers featuresSel created) = .ok cfg := by
  have h1 : ProjectConfig.from_mapping
      (serializeProjectConfig cfg driver_type browsers featuresSel created) =
      (if pyStrip cfg.base_url = "" then
        .error "Project config requires a non-empty 'base_url'."
      else .ok { name := cfg.name, base_url := pyStrip cfg.base_url
               , default_browser := pyLower "chrome" }) := rfl
  rw [h1, htrim, if_neg hne, show pyLower "chrome" = "chrome" from rfl, ← hbrowser]

/-- C2 witness: the amended round trip at a concrete configuration. -/
theorem c2_roundtrip_amended_witness :
    ProjectConfig.from_mapping (serializeProjectConfig
        { name := "demo", base_url := "https://x.io", default_browser := "chrome" }
        "selenium" ["chrome"] ["allure"] "2024-01-01T00:00:00") =
      .ok { name := "demo", base_url := "https://x.io", default_browser := "chrome" } :=
  c2_roundtrip_amended
    { name := "demo", base_url := "https://x.io", default_browser := "chrome" }
    "selenium" ["chrome"] ["allure"] "2024-01-01T00:00:00" rfl (by decide) (by decide)

/-- C5 counterexample: `from_mapping` strips whitespace but not slashes, so a
manifest whose `base_url` ends in `/` parses to a `ProjectConfig` whose
`base_url` still ends in `/`. -/
theorem c5_trailing_slash_counterexample :
    ProjectConfig.from_mapping
        { project := some { name := some "demo", base_url := some "https://x.io/" } } =
      .ok { name := "demo", base_url := "https://x.io/", default_browser := "chrome" } ∧
    pyEndsWith "https://x.io/" "/" = true :=
  ⟨rfl, by decide⟩

/-- C5 (amended): a parsed `ProjectConfig` has a non-empty `base_url` equal
to the input's `base_url` trimmed of surrounding whitespace — trailing
slashes are preserved by parsing; the trailing slash is stripped by the
`init` command, whose `rstrip("/")` output never ends with `/`. -/
theorem c5_parse_trims_only_whitespace (data : RawConfig) (cfg : ProjectConfig)
    (h : ProjectConfig.from_mapping data = .ok cfg) :
    cfg.base_url ≠ "" ∧
    (∃ p, data.project = some p ∧ cfg.base_url = pyStrip (p.base_url.getD "")) ∧
    (∀ s, pyEndsWith (rstripSlashes s) "/" = false) := by
  cases hp : data.project with
  | none =>
    rw [show ProjectConfig.from_mapping data =
      .error "Config must contain a 'project' mapping." by
        simp [ProjectConfig.from_mapping, hp]] at h
    cases h
  | some p =>
    by_cases hb : pyStrip (p.base_url.getD "") = ""
    · rw [show ProjectConfig.from_mapping data =
        .error "Project config requires a non-empty 'base_url'." by
          simp [ProjectConfig.from_mapping, hp, hb]] at h
      cases h
    · rw [show ProjectConfig.from_mapping data =
        .ok { name := p.name.getD "automation-project"
            , base_url := pyStrip (p.base_url.getD "")
            , default_browser := pyLower (p.default_browser.getD "chrome") } by
          simp [ProjectConfig.from_mapping, hp, hb]] at h
      cases h
      exact ⟨hb, ⟨p, rfl, rfl⟩, rstripSlashes_no_trailing⟩

/-- C5 witness: the amended statement at a concrete trailing-slash manifest. -/
theorem c5_parse_trims_only_whitespace_witness :
    ({ name := "demo", base_url := "https://x.io/", default_browser := "chrome" } :
        ProjectConfig).base_url ≠ "" ∧
    (∃ p, ({ project := some { name := some "demo", base_url := some "https://x.io/" } } :
        RawConfig).project = some p ∧
      ({ name := "demo", base_url := "https://x.io/", default_browser := "chrome" } :
        ProjectConfig).base_url = pyStrip (p.base_url.getD "")) ∧
    (∀ s, pyEndsWith (rstripSlashes s) "/" = false) :=
  c5_parse_trims_only_whitespace
    { project := some { name := some "demo", base_url := some "https://x.io/" } }
    { name := "demo", base_url := "https://x.io/", default_browser := "chrome" } rfl

/-- C9: for every non-empty input string, `_slugify`'s output matches
`^[a-z0-9]+(-[a-z0-9]+)*$` or equals the literal `"project"`. -/
theorem c9_slugify_shape (s : String) (hs : s ≠ "") :
    slugOk (_slugify s).toList = true ∨ _slugify s = "project" := by
  simp only [_slugify]
  by_cases h0 : String.mk ((dropAround (fun c => c = '-') (reSub s.toList)).map asciiLower) = ""
  · rw [if_pos h0]
    right
    rfl
  · rw [if_neg h0]
    left
    have hnf := slug_nf s.toList
    have htokne : runTokens s.toList ≠ [] := by
      intro hT
      apply h0
      have hempty : dropAround (fun c => c = '-') (reSub s.toList) = [] := by
        rw [hnf, hT, intercalate_nil_groups]
      rw [hempty]
      rfl
    have hlist : (String.mk ((dropAround (fun c => c = '-') (reSub s.toList)).map asciiLower)).toList
        = List.intercalate ['-'] ((runTokens s.toList).map (fun g => g.map asciiLower)) := by
      show (dropAround (fun c => c = '-') (reSub s.toList)).map asciiLower = _
      rw [hnf, map_intercalate_dash asciiLower asciiLower_dash]
    rw [hlist]
    unfold slugOk
    have hmapne : (runTokens s.toList).map (fun g => g.map asciiLower) ≠ [] := by
      simpa using htokne
    have hfree : ∀ g ∈ (runTokens s.toList).map (fun g => g.map asciiLower),
        ∀ c ∈ g, c ≠ '-' := by
      intro g hg c hc
      obtain ⟨g0, hg0, rfl⟩ := List.mem_map.mp hg
      obtain ⟨d, hd, rfl⟩ := List.mem_map.mp hc
      exact lowerSlug_ne_dash (lowerSlug_asciiLower ((mem_runTokens s.toList g0 hg0).1 d hd))
    rw [splitSep_intercalate _ hmapne hfree, List.all_eq_true]
    intro g hg
    obtain ⟨g0, hg0, rfl⟩ := List.mem_map.mp hg
    have hprops := mem_runTokens s.toList g0 hg0
    rw [Bool.and_eq_true]
    constructor
    · have h1 : g0.map asciiLower ≠ [] := by simpa using hprops.2
      simpa [List.isEmpty_iff] using h1
    · rw [List.all_eq_true]
      intro c hc
      obtain ⟨d, hd, rfl⟩ := List.mem_map.mp hc
      exact lowerSlug_asciiLower (hprops.1 d hd)

/-- C9 witness: the slugify shape property at a concrete non-empty input. -/
theorem c9_slugify_shape_witness :
    ("Login Page!" : String) ≠ "" ∧
      (slugOk (_slugify "Login Page!").toList = true ∨ _slugify "Login Page!" = "project") :=
  ⟨by decide, c9_slugify_shape "Login Page!" (by decide)⟩

/-- C6: running `init` with `force = false` against a target directory that
exists and is non-empty exits with code 1 and leaves the filesystem
unchanged — the conflict check precedes every write. -/
theorem c6_init_conflict_no_writes (fs : Fs) (name base_url : String)
    (directory : FsPath) (driverAnswer : String)
    (browsersAnswer featuresAnswer : List String) (created : String)
    (hex : fsExists fs (directory ++ [_package_name name]) = true)
    (hchild : fsHasChild fs (directory ++ [_package_name name]) = true) :
    initCmd fs name base_url directory false driverAnswer browsersAnswer
      featuresAnswer created = (fs, 1) := by
  unfold initCmd
  rw [if_pos (by simp [hex, hchild])]

/-- C6 witness: a concrete non-empty target directory makes `init` fail
without touching the filesystem. -/
theorem c6_init_conflict_no_writes_witness :
    initCmd [(["proj"], Node.dir), (["proj", "x.txt"], Node.file (.text "hi"))]
      "proj" "https://x.io" [] false "selenium" ["chrome"] [] "2024-01-01" =
      ([(["proj"], Node.dir), (["proj", "x.txt"], Node.file (.text "hi"))], 1) :=
  c6_init_conflict_no_writes
    [(["proj"], Node.dir), (["proj", "x.txt"], Node.file (.text "hi"))]
    "proj" "https://x.io" [] "selenium" ["chrome"] [] "2024-01-01"
    (by decide) (by decide)

/-- C7: when the persisted manifest has `features.api_testing = false`,
requesting an API test through `add_test` exits with code 1 and writes no
file — the `FeatureDisabled` check precedes every write. -/
theorem c7_api_disabled_no_writes (fs : Fs) (project_root : FsPath)
    (test_name : String) (driverOpt : Option String)
    (typeAnswer driverAnswer : String) (config : RawConfig) (feats : RawFeatures)
    (hload : _load_config fs project_root = some config)
    (hfeats : config.features = some feats)
    (hapi : feats.api_testing = some false) :
    add_test fs project_root test_name (some "api") driverOpt
      typeAnswer driverAnswer = (fs, 1) := by
  unfold add_test
  rw [hload]
  simp [hfeats, hapi]

/-- C7 witness: a concrete project whose manifest disables API testing. -/
theorem c7_api_disabled_no_writes_witness :
    add_test
      [([], Node.dir),
       ([".framework-config.yml"], Node.file (.yaml
        { project := some { name := some "demo", base_url := some "https://x.io" }
        , driver := some { type_ := "selenium", browsers := ["chrome"] }
        , features := some { api_testing := some false } }))]
      [] "smoke" (some "api") none "UI" "" =
      ([([], Node.dir),
        ([".framework-config.yml"], Node.file (.yaml
         { project := some { name := some "demo", base_url := some "https://x.io" }
         , driver := some { type_ := "selenium", browsers := ["chrome"] }
         , features := some { api_testing := some false } }))], 1) :=
  c7_api_disabled_no_writes
    [([], Node.dir),
     ([".framework-config.yml"], Node.file (.yaml
      { project := some { name := some "demo", base_url := some "https://x.io" }
      , driver := some { type_ := "selenium", browsers := ["chrome"] }
      , features := some { api_testing := some false } }))]
    [] "smoke" none "UI" ""
    { project := some { name := some "demo", base_url := some "https://x.io" }
    , driver := some { type_ := "selenium", browsers := ["chrome"] }
    , features := some { api_testing := some false } }
    { api_testing := some false }
    rfl rfl rfl

/-- The rendered Selenium page template declares its class: the text
`class <cls>:` occurs in the content. -/
theorem seleniumPageContent_class_occurs (d cls u : String) :
    ("class " ++ cls ++ ":").toList <:+: (seleniumPageContent d cls u).toList := by
  refine ⟨("\"\"\"Page object for " ++ d ++ ".\"\"\"\n\nfrom selenium.webdriver.common.by import By\nfrom selenium.webdriver.remote.webdriver import WebDriver\n\n\n").toList,
    ("\n    \"\"\"Page object for " ++ d ++ " page.\"\"\"\n\n    def __init__(self, driver: WebDriver) -> None:\n        self.driver = driver\n        " ++
      "self.url = \"" ++ u ++ "\"" ++
      "\n\n    def visit(self) -> None:\n        \"\"\"Navigate to the page.\"\"\"\n        self.driver.get(self.url)\n").toList, ?_⟩
  simp [seleniumPageContent, String.toList, String.data_append, List.append_assoc]

/-- The rendered Selenium page template embeds its URL: the text
`self.url = "<url>"` occurs in the content. -/
theorem seleniumPageContent_url_occurs (d cls u : String) :
    ("self.url = \"" ++ u ++ "\"").toList <:+: (seleniumPageContent d cls u).toList := by
  refine ⟨("\"\"\"Page object for " ++ d ++ ".\"\"\"\n\nfrom selenium.webdriver.common.by import By\nfrom selenium.webdriver.remote.webdriver import WebDriver\n\n\n" ++
      "class " ++ cls ++ ":" ++
      "\n    \"\"\"Page object for " ++ d ++ " page.\"\"\"\n\n    def __init__(self, driver: WebDriver) -> None:\n        self.driver = driver\n        ").toList,
    ("\n\n    def visit(self) -> None:\n        \"\"\"Navigate to the page.\"\"\"\n        self.driver.get(self.url)\n").toList, ?_⟩
  simp [seleniumPageContent, String.toList, String.data_append, List.append_assoc]

/-- C1 counterexample: `add_page` never derives the URL path from the page
name.  With page name "Login Page", driver selenium, and no explicit URL
path (the prompt default `/` is accepted), the generated file embeds
`base_url + "/"` — not `base_url + "/login-page"` — for the base URL
`https://x.io`. -/
theorem c1_default_url_counterexample :
    (fsGet (add_page
        [([], Node.dir), (["pages"], Node.dir),
         (["pages", "__init__.py"], Node.file (.text examplePagesInitContent)),
         ([".framework-config.yml"], Node.file (.yaml
          { project := some { name := some "demo", base_url := some "https://x.io" }
          , driver := some { type_ := "selenium", browsers := ["chrome"] }
          , features := some { api_testing := some false } }))]
        [] "Login Page" none (some "selenium") "selenium" "/").1
      ["pages", "login_page_page.py"] =
      some (.file (.text (seleniumPageContent "Login Page" "LoginPage" "https://x.io/")))) ∧
    containsSub (seleniumPageContent "Login Page" "LoginPage" "https://x.io/")
      "/login-page" = false ∧
    containsSub (seleniumPageContent "Login Page" "LoginPage" "https://x.io/")
      "self.url = \"https://x.io/\"" = true ∧
    ("https://x.io/" : String) ≠ "https://x.io" ++ "/login-page" :=
  ⟨rfl, by decide, by decide, by decide⟩

/-- C1 (amended): for every base URL with no trailing slash, `add_page` with
page name "Login Page", driver selenium, and no explicit URL path (the
prompt default `/`) succeeds and writes a page-object file whose declared
type name is `LoginPage` and whose embedded URL equals `base_url + "/"`;
the URL path is never derived from the page name. -/
theorem c1_add_page_login_page (base : String)
    (hs : pyEndsWith base "/" = false) :
    (add_page
        [([], Node.dir), (["pages"], Node.dir),
         (["pages", "__init__.py"], Node.file (.text examplePagesInitContent)),
         ([".framework-config.yml"], Node.file (.yaml
          { project := some { name := some "demo", base_url := some base }
          , driver := some { type_ := "selenium", browsers := ["chrome"] }
          , features := some { api_testing := some false } }))]
        [] "Login Page" none (some "selenium") "selenium" "/").2 = 0 ∧
    fsGet (add_page
        [([], Node.dir), (["pages"], Node.dir),
         (["pages", "__init__.py"], Node.file (.text examplePagesInitContent)),
         ([".framework-config.yml"], Node.file (.yaml
          { project := some { name := some "demo", base_url := some base }
          , driver := some { type_ := "selenium", browsers := ["chrome"] }
          , features := some { api_testing := some false } }))]
        [] "Login Page" none (some "selenium") "selenium" "/").1
      ["pages", "login_page_page.py"] =
      some (.file (.text (seleniumPageContent "Login Page" "LoginPage" (base ++ "/")))) ∧
    _class_name "Login Page" = "LoginPage" ∧
    ("class " ++ "LoginPage" ++ ":").toList <:+:
      (seleniumPageContent "Login Page" "LoginPage" (base ++ "/")).toList ∧
    ("self.url = \"" ++ (base ++ "/") ++ "\"").toList <:+:
      (seleniumPageContent "Login Page" "LoginPage" (base ++ "/")).toList :=
  ⟨rfl, rfl, rfl,
    seleniumPageContent_class_occurs "Login Page" "LoginPage" (base ++ "/"),
    seleniumPageContent_url_occurs "Login Page" "LoginPage" (base ++ "/")⟩

/-- C1 witness: the amended statement at the concrete base URL
`https://x.io`. -/
theorem c1_add_page_login_page_witness :
    (add_page
        [([], Node.dir), (["pages"], Node.dir),
         (["pages", "__init__.py"], Node.file (.text examplePagesInitContent)),
         ([".framework-config.yml"], Node.file (.yaml
          { project := some { name := some "demo", base_url := some "https://x.io" }
          , driver := some { type_ := "selenium", browsers := ["chrome"] }
          , features := some { api_testing := some false } }))]
        [] "Login Page" none (some "selenium") "selenium" "/").2 = 0 ∧
    fsGet (add_page
        [([], Node.dir), (["pages"], Node.dir),
         (["pages", "__init__.py"], Node.file (.text examplePagesInitContent)),
         ([".framework-config.yml"], Node.file (.yaml
          { project := some { name := some "demo", base_url := some "https://x.io" }
          , driver := some { type_ := "selenium", browsers := ["chrome"] }
          , features := some { api_testing := some false } }))]
        [] "Login Page" none (some "selenium") "selenium" "/").1
      ["pages", "login_page_page.py"] =
      some (.file (.text (seleniumPageContent "Login Page" "LoginPage" ("https://x.io" ++ "/")))) ∧
    _class_name "Login Page" = "LoginPage" ∧
    ("class " ++ "LoginPage" ++ ":").toList <:+:
      (seleniumPageContent "Login Page" "LoginPage" ("https://x.io" ++ "/")).toList ∧
    ("self.url = \"" ++ ("https://x.io" ++ "/") ++ "\"").toList <:+:
      (seleniumPageContent "Login Page" "LoginPage" ("https://x.io" ++ "/")).toList :=
  c1_add_page_login_page "https://x.io" (by decide)

/-! ### Filesystem read/write lemmas -/

theorem fsGet_fsWrite_self (fs : Fs) (p : FsPath) (n : Node) :
    fsGet (fsWrite fs p n) p = some n := by
  unfold fsGet fsWrite
  rw [List.find?_append]
  have hnone : (fs.filter (fun e => e.1 ≠ p)).find? (fun e => e.1 = p) = none := by
    rw [List.find?_eq_none]
    intro x hx
    have hx2 := (List.mem_filter.mp hx).2
    simpa using hx2
  rw [hnone]
  simp [List.find?]

theorem fsGet_fsWrite_ne (fs : Fs) {p q : FsPath} (hpq : q ≠ p) (n : Node) :
    fsGet (fsWrite fs p n) q = fsGet fs q := by
  unfold fsGet fsWrite
  rw [List.find?_append]
  have key : ∀ (l : Fs),
      (l.filter (fun e => e.1 ≠ p)).find? (fun e => e.1 = q) =
        l.find? (fun e => e.1 = q) := by
    intro l
    induction l with
    | nil => rfl
    | cons x xs ih =>
      by_cases hx : x.1 = p
      · rw [List.filter_cons, if_neg (by simp [hx]), ih,
          List.find?_cons_of_neg _ (by simp [hx, hpq.symm])]
      · rw [List.filter_cons, if_pos (by simp [hx])]
        by_cases hq : x.1 = q
        · rw [List.find?_cons_of_pos _ (by simp [hq]), List.find?_cons_of_pos _ (by simp [hq])]
        · rw [List.find?_cons_of_neg _ (by simp [hq]), List.find?_cons_of_neg _ (by simp [hq]), ih]
  rw [key fs]
  cases hf : fs.find? (fun e => e.1 = q) with
  | some v => rfl
  | none => simp [List.find?, show ¬ (p = q) from fun h => hpq h.symm]

theorem path_snoc_ne {dir : FsPath} {a b : String} (h : a ≠ b) :
    dir ++ [a] ≠ dir ++ [b] := by
  intro hc
  exact h (by simpa using List.append_cancel_left hc)

/-- The generated page-object filename is never the package marker. -/
theorem page_file_ne_init (slug : String) : slug ++ "_page.py" ≠ "__init__.py" := by
  intro h
  have hsuf : ("_page.py" : String).toList <:+ ("__init__.py" : String).toList := by
    refine ⟨slug.toList, ?_⟩
    have := congrArg String.toList h
    rw [show (slug ++ "_page.py").toList = slug.toList ++ ("_page.py" : String).toList from
      String.data_append slug "_page.py"] at this
    exact this
  exact absurd hsuf (by decide)

/-! ### `pyStrip` lemmas -/

/-- Stripping only removes characters at the ends: the result is an infix. -/
theorem pyStrip_within (s : String) : (pyStrip s).toList <:+: s.toList := by
  unfold pyStrip dropAround dropTrail
  show ((s.toList.dropWhile isPyWhitespace).reverse.dropWhile isPyWhitespace).reverse <:+: s.toList
  have h1 : s.toList.dropWhile isPyWhitespace <:+ s.toList := List.dropWhile_suffix _
  have h2 : ((s.toList.dropWhile isPyWhitespace).reverse.dropWhile isPyWhitespace).reverse <+:
      s.toList.dropWhile isPyWhitespace := by
    obtain ⟨t, ht⟩ :=
      List.dropWhile_suffix (l := (s.toList.dropWhile isPyWhitespace).reverse) isPyWhitespace
    refine ⟨t.reverse, ?_⟩
    have := congrArg List.reverse ht
    rw [List.reverse_append, List.reverse_reverse] at this
    exact this
  exact h2.isInfix.trans h1.isInfix

theorem dropTrail_last_false {p : Char → Bool} {d : Char} (hd : p d = false) (l : List Char) :
    dropTrail p (l ++ [d]) = l ++ [d] := by
  unfold dropTrail
  rw [List.reverse_append]
  simp only [List.reverse_cons, List.reverse_nil, List.nil_append, List.singleton_append]
  rw [dropWhile_head_not hd]
  simp

/-- `str.strip()` of a newline-terminated line whose body starts and ends
with non-whitespace characters removes exactly the newline. -/
theorem pyStrip_newline_terminated (body : String) (c d : Char) (mid : List Char)
    (hbody : body.toList = c :: (mid ++ [d]))
    (hc : isPyWhitespace c = false) (hd : isPyWhitespace d = false) :
    pyStrip (body ++ "\n") = body := by
  unfold pyStrip dropAround
  have hl : (body ++ "\n").toList = c :: (mid ++ [d] ++ ['\n']) := by
    show (body ++ "\n").data = _
    rw [String.data_append]
    rw [show body.data = body.toList from rfl, hbody]
    simp
  rw [hl, dropWhile_head_not hc]
  have hsplit : (c :: (mid ++ [d] ++ ['\n'])) = (c :: (mid ++ [d])) ++ ['\n'] := by simp
  rw [hsplit, dropTrail_append, if_pos (show dropTrail isPyWhitespace ['\n'] = [] from rfl)]
  have h2 : (c :: (mid ++ [d])) = (c :: mid) ++ [d] := by simp
  rw [h2, dropTrail_last_false hd, ← h2, ← hbody]
  rfl

/-! ### Character-set facts about the generated names -/

theorem mem_intercalate_dash {c : Char} : ∀ (gs : List (List Char)),
    c ∈ List.intercalate ['-'] gs → c = '-' ∨ ∃ g ∈ gs, c ∈ g := by
  intro gs
  induction gs with
  | nil =>
    intro h
    rw [intercalate_nil_groups] at h
    cases h
  | cons g t ih =>
    intro h
    cases t with
    | nil =>
      rw [intercalate_single] at h
      exact Or.inr ⟨g, by simp, h⟩
    | cons a t2 =>
      rw [intercalate_cons_ne _ _ _ (by simp)] at h
      rcases List.mem_append.mp h with h | h
      · rcases List.mem_append.mp h with h | h
        · exact Or.inr ⟨g, by simp, h⟩
        · simp only [List.mem_singleton] at h
          exact Or.inl h
      · rcases ih h with h | ⟨g', hg', hc'⟩
        · exact Or.inl h
        · exact Or.inr ⟨g', by simp [hg'], hc'⟩

/-- The slug pipeline restated on `toList`. -/
theorem slug_toList (s : String) :
    (dropAround (fun c => c = '-') (reSub s.toList)).map asciiLower
      = List.intercalate ['-'] ((runTokens s.toList).map (fun g => g.map asciiLower)) := by
  rw [slug_nf, map_intercalate_dash asciiLower asciiLower_dash]

theorem _slugify_chars (s : String) :
    ∀ c ∈ (_slugify s).toList, isLowerSlugChar c = true ∨ c = '-' := by
  intro c hc
  simp only [_slugify] at hc
  by_cases h0 : String.mk ((dropAround (fun c => c = '-') (reSub s.toList)).map asciiLower) = ""
  · rw [if_pos h0] at hc
    left
    rw [show ("project" : String).toList = ['p', 'r', 'o', 'j', 'e', 'c', 't'] from rfl] at hc
    simp only [List.mem_cons, List.not_mem_nil, or_false] at hc
    rcases hc with rfl | rfl | rfl | rfl | rfl | rfl | rfl <;> decide
  · rw [if_neg h0] at hc
    have hc' : c ∈ List.intercalate ['-']
        ((runTokens s.toList).map (fun g => g.map asciiLower)) := by
      rw [← slug_toList s]
      exact hc
    rcases mem_intercalate_dash _ hc' with h | ⟨g', hg', hcg⟩
    · right
      exact h
    · left
      obtain ⟨g0, hg0, rfl⟩ := List.mem_map.mp hg'
      obtain ⟨d, hd, rfl⟩ := List.mem_map.mp hcg
      exact lowerSlug_asciiLower ((mem_runTokens s.toList g0 hg0).1 d hd)

theorem _package_name_chars (s : String) :
    ∀ c ∈ (_package_name s).toList, isLowerSlugChar c = true ∨ c = '_' := by
  intro c hc
  unfold _package_name at hc
  obtain ⟨d, hd, rfl⟩ := List.mem_map.mp hc
  rcases _slugify_chars s d hd with h | h
  · left
    rw [if_neg (lowerSlug_ne_dash h)]
    exact h
  · right
    rw [h]
    simp

theorem classNameTokens_eq_runTokens (s : String) :
    classNameTokens s = runTokens s.toList := by
  unfold classNameTokens
  exact filter_reSplitRuns _

theorem classNameCore_chars (s : String) :
    ∀ c ∈ (classNameCore s).toList, isAlnumAscii c = true := by
  intro c hc
  unfold classNameCore at hc
  rw [show (String.mk (List.flatten ((classNameTokens s).map pyCapitalize))).toList
    = List.flatten ((classNameTokens s).map pyCapitalize) from rfl, List.mem_flatten] at hc
  obtain ⟨piece, hp, hcp⟩ := hc
  obtain ⟨tok, htok, rfl⟩ := List.mem_map.mp hp
  rw [classNameTokens_eq_runTokens] at htok
  have halnum := (mem_runTokens s.toList tok htok).1
  cases tok with
  | nil => cases hcp
  | cons d ds =>
    rcases List.mem_cons.mp hcp with rfl | hcp
    · exact alnum_asciiUpper (halnum d (by simp))
    · obtain ⟨d', hd', rfl⟩ := List.mem_map.mp hcp
      exact alnum_asciiLower (halnum d' (by simp [hd']))

theorem _class_name_chars (s : String) :
    ∀ c ∈ (_class_name s).toList, isAlnumAscii c = true := by
  intro c hc
  simp only [_class_name] at hc
  have hpage : ∀ c ∈ ("Page" : String).toList, isAlnumAscii c = true := by decide
  have hn1 : ∀ c ∈ (if classNameCore s = "" then "Page" else classNameCore s).toList,
      isAlnumAscii c = true := by
    by_cases h0 : classNameCore s = ""
    · rw [if_pos h0]
      exact hpage
    · rw [if_neg h0]
      exact classNameCore_chars s
  by_cases he : pyEndsWith (if classNameCore s = "" then "Page" else classNameCore s) "Page" = true
  · rw [if_pos he] at hc
    exact hn1 c hc
  · rw [if_neg he] at hc
    rw [show ((if classNameCore s = "" then "Page" else classNameCore s) ++ "Page").toList
      = (if classNameCore s = "" then "Page" else classNameCore s).toList ++
        ("Page" : String).toList from String.data_append _ _] at hc
    rcases List.mem_append.mp hc with hc | hc
    · exact hn1 c hc
    · exact hpage c hc

theorem _class_name_ends_page (s : String) :
    ("Page" : String).toList <:+ (_class_name s).toList := by
  simp only [_class_name]
  by_cases he : pyEndsWith (if classNameCore s = "" then "Page" else classNameCore s) "Page" = true
  · rw [if_pos he]
    unfold pyEndsWith at he
    exact of_decide_eq_true he
  · rw [if_neg he]
    exact ⟨(if classNameCore s = "" then "Page" else classNameCore s).toList,
      (String.data_append _ _).symm⟩

/-! ### Line counting -/

theorem string_toList_append (a b : String) : (a ++ b).toList = a.toList ++ b.toList :=
  String.data_append a b

theorem within_append_left {l a b : List Char} (h : l <:+: b) : l <:+: a ++ b := by
  obtain ⟨s, t, hst⟩ := h
  exact ⟨a ++ s, t, by simp [← hst, List.append_assoc]⟩

theorem count_line (existing body : List Char)
    (hend : existing = [] ∨ ∃ e0, existing = e0 ++ ['\n'])
    (hnl : ∀ c ∈ body, c ≠ '\n')
    (hbody_ne : body ≠ [])
    (hnotin : ¬ (body <:+: existing)) :
    List.count body (splitSep '\n' (existing ++ (body ++ ['\n']))) = 1 := by
  have hsplit_body : splitSep '\n' (body ++ ['\n']) = [body, []] := by
    rw [show body ++ ['\n'] = body ++ '\n' :: ([] : List Char) from rfl, splitSep_append_sep,
      splitSep_no_sep hnl, splitSep_nil]
    rfl
  have hcount2 : List.count body [body, []] = 1 := by
    simp [List.count_cons, hbody_ne]
  rcases hend with rfl | ⟨e0, rfl⟩
  · rw [List.nil_append, hsplit_body, hcount2]
  · rw [show (e0 ++ ['\n']) ++ (body ++ ['\n']) = e0 ++ '\n' :: (body ++ ['\n']) by simp,
      splitSep_append_sep, hsplit_body, List.count_append, hcount2]
    have hzero : List.count body (splitSep '\n' e0) = 0 := by
      rw [List.count_eq_zero]
      intro hmem
      exact hnotin ((mem_splitSep_within hmem).trans ⟨[], ['\n'], by simp⟩)
    rw [hzero]

/-! ### `updateInitFile` behavior -/

theorem updateInitFile_append {fs : Fs} {initP : FsPath} {existing line : String}
    (hget : fsGet fs initP = some (.file (.text existing)))
    (hnotin : containsSub existing (pyStrip line) = false) :
    updateInitFile fs initP line = fsWrite fs initP (.file (.text (existing ++ line))) := by
  unfold updateInitFile
  rw [hget]
  simp [readText, hnotin]

theorem updateInitFile_skip {fs : Fs} {initP : FsPath} {existing line : String}
    (hget : fsGet fs initP = some (.file (.text existing)))
    (hin : containsSub existing (pyStrip line) = true) :
    updateInitFile fs initP line = fs := by
  unfold updateInitFile
  rw [hget]
  simp [readText, hin]

/-- Writing one page artifact and updating the package marker, twice over:
the page file carries the same bytes after either run, and after the second
run the marker holds the previous text plus exactly one copy of the import
line.  This is the shared shape of `_create_selenium_page` and
`_create_playwright_page`. -/
theorem write_update_twice_spec (fs : Fs) (dir : FsPath) (slug cls content existing : String)
    (hget : fsGet fs (dir ++ ["__init__.py"]) = some (.file (.text existing)))
    (hend : existing = "" ∨ pyEndsWith existing "\n" = true)
    (hnotin : containsSub existing ("from ." ++ slug ++ "_page import " ++ cls) = false)
    (hpage : ("Page" : String).toList <:+ cls.toList)
    (hslugChars : ∀ c ∈ slug.toList, isLowerSlugChar c = true ∨ c = '_')
    (hclsChars : ∀ c ∈ cls.toList, isAlnumAscii c = true) :
    (fsGet (updateInitFile (fsWrite fs (dir ++ [slug ++ "_page.py"]) (.file (.text content)))
        (dir ++ ["__init__.py"]) ("from ." ++ slug ++ "_page import " ++ cls ++ "\n"))
      (dir ++ [slug ++ "_page.py"]) = some (.file (.text content))) ∧
    (fsGet (updateInitFile (fsWrite
        (updateInitFile (fsWrite fs (dir ++ [slug ++ "_page.py"]) (.file (.text content)))
          (dir ++ ["__init__.py"]) ("from ." ++ slug ++ "_page import " ++ cls ++ "\n"))
        (dir ++ [slug ++ "_page.py"]) (.file (.text content)))
        (dir ++ ["__init__.py"]) ("from ." ++ slug ++ "_page import " ++ cls ++ "\n"))
      (dir ++ [slug ++ "_page.py"]) = some (.file (.text content))) ∧
    (fsGet (updateInitFile (fsWrite
        (updateInitFile (fsWrite fs (dir ++ [slug ++ "_page.py"]) (.file (.text content)))
          (dir ++ ["__init__.py"]) ("from ." ++ slug ++ "_page import " ++ cls ++ "\n"))
        (dir ++ [slug ++ "_page.py"]) (.file (.text content)))
        (dir ++ ["__init__.py"]) ("from ." ++ slug ++ "_page import " ++ cls ++ "\n"))
      (dir ++ ["__init__.py"]) =
      some (.file (.text (existing ++ ("from ." ++ slug ++ "_page import " ++ cls ++ "\n"))))) ∧
    List.count ("from ." ++ slug ++ "_page import " ++ cls).toList
      (splitSep '\n' (existing ++ ("from ." ++ slug ++ "_page import " ++ cls ++ "\n")).toList)
      = 1 := by
  obtain ⟨t, ht⟩ := hpage
  have hne : (dir ++ ["__init__.py"]) ≠ (dir ++ [slug ++ "_page.py"]) :=
    path_snoc_ne (fun h => page_file_ne_init slug h.symm)
  have hne' : (dir ++ [slug ++ "_page.py"]) ≠ (dir ++ ["__init__.py"]) := fun h => hne h.symm
  have hbody : ("from ." ++ slug ++ "_page import " ++ cls).toList =
      'f' :: ((("rom ." : String).toList ++ slug.toList ++ ("_page import " : String).toList ++
        t ++ ['P', 'a', 'g']) ++ ['e']) := by
    rw [string_toList_append, string_toList_append, string_toList_append]
    have hcls : cls.toList = t ++ ['P', 'a', 'g', 'e'] := by
      rw [← ht]
      rfl
    rw [hcls, show ("from ." : String).toList = 'f' :: ("rom ." : String).toList from rfl]
    simp [List.append_assoc]
  have hline_eq : ("from ." ++ slug ++ "_page import " ++ cls ++ "\n") =
      ("from ." ++ slug ++ "_page import " ++ cls) ++ "\n" := by
    simp [String.append_assoc]
  have hstrip : pyStrip ("from ." ++ slug ++ "_page import " ++ cls ++ "\n") =
      "from ." ++ slug ++ "_page import " ++ cls := by
    rw [hline_eq]
    exact pyStrip_newline_terminated _ 'f' 'e' _ hbody (by decide) (by decide)
  have hget1 : fsGet (fsWrite fs (dir ++ [slug ++ "_page.py"]) (.file (.text content)))
      (dir ++ ["__init__.py"]) = some (.file (.text existing)) := by
    rw [fsGet_fsWrite_ne fs hne]
    exact hget
  have hnotin1 : containsSub existing
      (pyStrip ("from ." ++ slug ++ "_page import " ++ cls ++ "\n")) = false := by
    rw [hstrip]
    exact hnotin
  have hrun1 := updateInitFile_append hget1 hnotin1
  have hA1 : fsGet (updateInitFile (fsWrite fs (dir ++ [slug ++ "_page.py"]) (.file (.text content)))
      (dir ++ ["__init__.py"]) ("from ." ++ slug ++ "_page import " ++ cls ++ "\n"))
      (dir ++ [slug ++ "_page.py"]) = some (.file (.text content)) := by
    rw [hrun1, fsGet_fsWrite_ne _ hne', fsGet_fsWrite_self]
  have hget2 : fsGet (fsWrite
      (updateInitFile (fsWrite fs (dir ++ [slug ++ "_page.py"]) (.file (.text content)))
        (dir ++ ["__init__.py"]) ("from ." ++ slug ++ "_page import " ++ cls ++ "\n"))
      (dir ++ [slug ++ "_page.py"]) (.file (.text content))) (dir ++ ["__init__.py"]) =
      some (.file (.text (existing ++ ("from ." ++ slug ++ "_page import " ++ cls ++ "\n")))) := by
    rw [fsGet_fsWrite_ne _ hne, hrun1, fsGet_fsWrite_self]
  have hin2 : containsSub (existing ++ ("from ." ++ slug ++ "_page import " ++ cls ++ "\n"))
      (pyStrip ("from ." ++ slug ++ "_page import " ++ cls ++ "\n")) = true := by
    apply decide_eq_true
    have hinf := pyStrip_within ("from ." ++ slug ++ "_page import " ++ cls ++ "\n")
    have happ : (existing ++ ("from ." ++ slug ++ "_page import " ++ cls ++ "\n")).toList =
        existing.toList ++ ("from ." ++ slug ++ "_page import " ++ cls ++ "\n").toList :=
      string_toList_append _ _
    rw [happ]
    exact within_append_left hinf
  have hrun2 := updateInitFile_skip hget2 hin2
  refine ⟨hA1, ?_, ?_, ?_⟩
  · rw [hrun2, fsGet_fsWrite_self]
  · rw [hrun2]
    exact hget2
  · have hlistL : (existing ++ ("from ." ++ slug ++ "_page import " ++ cls ++ "\n")).toList =
        existing.toList ++ (("from ." ++ slug ++ "_page import " ++ cls).toList ++ ['\n']) := by
      simp [string_toList_append, show ("\n" : String).toList = ['\n'] from rfl,
        List.append_assoc]
    rw [hlistL]
    apply count_line
    · rcases hend with hE | hE
      · left
        rw [hE]
        rfl
      · right
        have hsuf : ("\n" : String).toList <:+ existing.toList := of_decide_eq_true hE
        obtain ⟨e0, he0⟩ := hsuf
        exact ⟨e0, he0.symm⟩
    · intro c hc
      rw [string_toList_append, string_toList_append, string_toList_append] at hc
      rcases List.mem_append.mp hc with hc | hc
      · rcases List.mem_append.mp hc with hc | hc
        · rcases List.mem_append.mp hc with hc | hc
          · have hlit : ∀ x ∈ ("from ." : String).toList, x ≠ '\n' := by decide
            exact hlit c hc
          · rcases hslugChars c hc with h | h
            · exact alnum_ne_newline (lowerSlug_alnum h)
            · rw [h]
              decide
        · have hlit : ∀ x ∈ ("_page import " : String).toList, x ≠ '\n' := by decide
          exact hlit c hc
      · exact alnum_ne_newline (hclsChars c hc)
    · rw [hbody]
      simp
    · exact of_decide_eq_false hnotin

/-- C8: running `add_page`'s page creation twice with identical arguments
writes byte-identical page-object content both times (for both the Selenium
and the Playwright variant), and afterwards the package-marker `__init__.py`
contains exactly one import line referencing the artifact. -/
theorem c8_add_page_twice_idempotent (fs : Fs) (selDir pwDir : FsPath)
    (page_name url eSel ePw : String)
    (hSelGet : fsGet fs (selDir ++ ["__init__.py"]) = some (.file (.text eSel)))
    (hSelEnd : eSel = "" ∨ pyEndsWith eSel "\n" = true)
    (hSelNotin : containsSub eSel
      ("from ." ++ _package_name page_name ++ "_page import " ++ _class_name page_name) = false)
    (hPwGet : fsGet fs (pwDir ++ ["__init__.py"]) = some (.file (.text ePw)))
    (hPwEnd : ePw = "" ∨ pyEndsWith ePw "\n" = true)
    (hPwNotin : containsSub ePw
      ("from ." ++ _package_name page_name ++ "_page import " ++ _class_name page_name) = false) :
    ((fsGet (_create_selenium_page fs selDir (_package_name page_name) (_class_name page_name)
          page_name url)
        (selDir ++ [_package_name page_name ++ "_page.py"]) =
        some (.file (.text (seleniumPageContent page_name (_class_name page_name) url)))) ∧
      (fsGet (_create_selenium_page
          (_create_selenium_page fs selDir (_package_name page_name) (_class_name page_name)
            page_name url)
          selDir (_package_name page_name) (_class_name page_name) page_name url)
        (selDir ++ [_package_name page_name ++ "_page.py"]) =
        some (.file (.text (seleniumPageContent page_name (_class_name page_name) url)))) ∧
      (fsGet (_create_selenium_page
          (_create_selenium_page fs selDir (_package_name page_name) (_class_name page_name)
            page_name url)
          selDir (_package_name page_name) (_class_name page_name) page_name url)
        (selDir ++ ["__init__.py"]) =
        some (.file (.text (eSel ++ ("from ." ++ _package_name page_name ++ "_page import " ++
          _class_name page_name ++ "\n"))))) ∧
      List.count ("from ." ++ _package_name page_name ++ "_page import " ++
          _class_name page_name).toList
        (splitSep '\n' (eSel ++ ("from ." ++ _package_name page_name ++ "_page import " ++
          _class_name page_name ++ "\n")).toList) = 1) ∧
    ((fsGet (_create_playwright_page fs pwDir (_package_name page_name) (_class_name page_name)
          page_name url)
        (pwDir ++ [_package_name page_name ++ "_page.py"]) =
        some (.file (.text (playwrightPageContent page_name (_class_name page_name) url)))) ∧
      (fsGet (_create_playwright_page
          (_create_playwright_page fs pwDir (_package_name page_name) (_class_name page_name)
            page_name url)
          pwDir (_package_name page_name) (_class_name page_name) page_name url)
        (pwDir ++ [_package_name page_name ++ "_page.py"]) =
        some (.file (.text (playwrightPageContent page_name (_class_name page_name) url)))) ∧
      (fsGet (_create_playwright_page
          (_create_playwright_page fs pwDir (_package_name page_name) (_class_name page_name)
            page_name url)
          pwDir (_package_name page_name) (_class_name page_name) page_name url)
        (pwDir ++ ["__init__.py"]) =
        some (.file (.text (ePw ++ ("from ." ++ _package_name page_name ++ "_page import " ++
          _class_name page_name ++ "\n"))))) ∧
      List.count ("from ." ++ _package_name page_name ++ "_page import " ++
          _class_name page_name).toList
        (splitSep '\n' (ePw ++ ("from ." ++ _package_name page_name ++ "_page import " ++
          _class_name page_name ++ "\n")).toList) = 1) := by
  constructor
  · exact write_update_twice_spec fs selDir (_package_name page_name) (_class_name page_name)
      (seleniumPageContent page_name (_class_name page_name) url) eSel
      hSelGet hSelEnd hSelNotin (_class_name_ends_page page_name)
      (_package_name_chars page_name) (_class_name_chars page_name)
  · exact write_update_twice_spec fs pwDir (_package_name page_name) (_class_name page_name)
      (playwrightPageContent page_name (_class_name page_name) url) ePw
      hPwGet hPwEnd hPwNotin (_class_name_ends_page page_name)
      (_package_name_chars page_name) (_class_name_chars page_name)

/-- C8 witness: adding the "Login Page" page twice to a freshly initialized
project leaves exactly one import line in `pages/__init__.py`. -/
theorem c8_add_page_twice_idempotent_witness :
    (fsGet (_create_selenium_page
        (_create_selenium_page
          [(["pages"], Node.dir),
           (["pages", "__init__.py"], Node.file (.text examplePagesInitContent)),
           (["pages_pw"], Node.dir),
           (["pages_pw", "__init__.py"], Node.file (.text ""))]
          ["pages"] (_package_name "Login Page") (_class_name "Login Page")
          "Login Page" "https://x.io/")
        ["pages"] (_package_name "Login Page") (_class_name "Login Page")
        "Login Page" "https://x.io/")
      (["pages"] ++ ["__init__.py"]) =
      some (.file (.text (examplePagesInitContent ++ ("from ." ++ _package_name "Login Page" ++
        "_page import " ++ _class_name "Login Page" ++ "\n"))))) ∧
    List.count ("from ." ++ _package_name "Login Page" ++ "_page import " ++
        _class_name "Login Page").toList
      (splitSep '\n' (examplePagesInitContent ++ ("from ." ++ _package_name "Login Page" ++
        "_page import " ++ _class_name "Login Page" ++ "\n")).toList) = 1 :=
  ⟨(c8_add_page_twice_idempotent
      [(["pages"], Node.dir),
       (["pages", "__init__.py"], Node.file (.text examplePagesInitContent)),
       (["pages_pw"], Node.dir),
       (["pages_pw", "__init__.py"], Node.file (.text ""))]
      ["pages"] ["pages_pw"] "Login Page" "https://x.io/" examplePagesInitContent ""
      rfl (Or.inr (by decide)) (by decide) rfl (Or.inl rfl) (by decide)).1.2.2.1,
   (c8_add_page_twice_idempotent
      [(["pages"], Node.dir),
       (["pages", "__init__.py"], Node.file (.text examplePagesInitContent)),
       (["pages_pw"], Node.dir),
       (["pages_pw", "__init__.py"], Node.file (.text ""))]
      ["pages"] ["pages_pw"] "Login Page" "https://x.io/" examplePagesInitContent ""
      rfl (Or.inr (by decide)) (by decide) rfl (Or.inl rfl) (by decide)).1.2.2.2⟩

end Qfg
